import Mathlib

/-!
# Video-analysis pipeline, live-update server and keyword scanner

A shallow embedding of

* `src/app/api/analyze-video/route.js` (`emitProgress`, `POST`),
* `src/server.js` (the `connection` handler and the process-wide `global.socketIo`),
* `src/app/utils/securityAnalysis.js` (`suspiciousKeywords`, `analyzeForSecurity`),

together with the POSIX behaviour of `path.join` that `POST` relies on.

External collaborators (the request body, the clock, the file system, the
Gemini file manager and chat session) are an explicit environment `Env`; every
call that can throw returns `Except String _`, the string being `error.message`.
Every effect performed by a run is recorded, in order, in a trace.

A progress event in a trace is a call of the route's `emitProgress`, that is,
one publication. Which clients a publication reaches depends on
`global.socketIo` and is modelled separately, in `LiveUpdate.emitProgress`.

Paths follow `path.posix`: the separator is `/`. Strings are sequences of
Unicode characters. `String.prototype.toLowerCase` and `JSON.parse` are
parameters of the scanner (`Builtins`).
-/

namespace AnalyzeVideo

/-! ## Data model -/

/-- A snapshot returned by `fileManager.getFile`: the fields `POST` reads. -/
structure GeminiFile where
  state : String
  mimeType : String
  uri : String
deriving DecidableEq, Repr

/-- Value of `await chatSession.sendMessage(..)`; `text` is the outcome of
`result.response.text()`. -/
structure ChatResult where
  text : Except String String

/-- Truthy value of `formData.get('video')`: the fields `POST` reads, and the
outcome of `await file.arrayBuffer()`. -/
structure VideoFile where
  name : String
  type : String
  arrayBuffer : Except String (List Nat)

/-- Everything outside the route handler. `formData` is the outcome of
`await request.formData()` followed by `.get('video')`, `none` standing for a
falsy value; `getFile name k` is the outcome of the `k`-th call (counted from 0)
of `fileManager.getFile(name)` made by the invocation. -/
structure Env where
  formData : Except String (Option VideoFile)
  now : Nat
  cwd : String
  writeFile : String → List Nat → Except String Unit
  uploadFile : String → String → String → Except String String
  getFile : String → Nat → Except String GeminiFile
  sendMessage : String → String → String → Except String ChatResult
  unlink : String → Except String Unit

/-- Observable effects of one invocation, in program order. `emitProgress` is a
call of the route's `emitProgress(event, {status, message})`. -/
inductive Effect where
  | emitProgress (event status message : String)
  | writeFile (path : String) (data : List Nat)
  | uploadFile (path mimeType displayName : String)
  | getFile (name : String)
  | setTimeout (ms : Nat)
  | sendMessage (mimeType fileUri text : String)
  | unlink (path : String)
  | consoleError (label message : String)
deriving DecidableEq, Repr

/-- A `NextResponse.json(body, {status})` whose body is an object with string fields. -/
structure Response where
  status : Nat
  body : List (String × String)
deriving DecidableEq, Repr

/-- A computation inside the `try` block: the effects performed so far and
either a value or the message of the thrown error. -/
structure Run (α : Type) where
  trace : List Effect
  result : Except String α

/-- Sequencing: a throw skips what follows, the effects already performed stay. -/
def Run.bind {α β : Type} (r : Run α) (f : α → Run β) : Run β :=
  match r.result with
  | .error m => ⟨r.trace, .error m⟩
  | .ok a => ⟨r.trace ++ (f a).trace, (f a).result⟩

instance : Monad Run where
  pure a := ⟨[], .ok a⟩
  bind := Run.bind

/-- Perform one effect. -/
def perform (e : Effect) : Run Unit := ⟨[e], .ok ()⟩

/-- Perform one fallible external call, recording it. -/
def call {α : Type} (e : Effect) (outcome : Except String α) : Run α := ⟨[e], outcome⟩

/-- A fallible step that leaves no effect of its own in the trace. -/
def await {α : Type} (outcome : Except String α) : Run α := ⟨[], outcome⟩

/-- The statement `throw new Error(message)`. -/
def throwNew {α : Type} (message : String) : Run α := ⟨[], .error message⟩

/-- The helper `emitProgress(event, data)` seen from the route: one publication. -/
def emitProgress (event status message : String) : Run Unit :=
  perform (.emitProgress event status message)

/-! ## `path.join` (POSIX), as used for `uploadDir` and `filePath`

`path.join` belongs to the Node.js runtime, not to the repository. It joins its
non-empty arguments with `/` and normalizes the result: empty and `.` segments
are dropped, a `..` segment removes the segment before it, a trailing separator
is kept. The model works on the list of segments of the joined path. -/

/-- The pieces of a path between its `/` separators. -/
def splitSep : List Char → List (List Char)
  | [] => [[]]
  | c :: cs =>
    if c = '/' then [] :: splitSep cs
    else
      match splitSep cs with
      | [] => [[c]]
      | s :: ss => (c :: s) :: ss

/-- Resolution of `.` and `..` segments and of repeated separators, left to
right; `acc` holds the segments kept so far, last one first. A `..` removes the
last kept segment unless that one is itself `..`; with nothing to remove it is
kept for a relative path (`allowAboveRoot`) and dropped for an absolute one. -/
def normalizeSegs (allowAboveRoot : Bool) : List (List Char) → List (List Char) → List (List Char)
  | acc, [] => acc.reverse
  | acc, seg :: rest =>
    if seg = [] ∨ seg = ['.'] then normalizeSegs allowAboveRoot acc rest
    else if seg = ['.', '.'] then
      match acc with
      | [] =>
        if allowAboveRoot then normalizeSegs allowAboveRoot [seg] rest
        else normalizeSegs allowAboveRoot [] rest
      | top :: acc' =>
        if top = ['.', '.'] then normalizeSegs allowAboveRoot (seg :: acc) rest
        else normalizeSegs allowAboveRoot acc' rest
    else normalizeSegs allowAboveRoot (seg :: acc) rest

/-- The call `normalizeString(path, allowAboveRoot, '/', isPosixPathSeparator)`. -/
def normalizeString (path : List Char) (allowAboveRoot : Bool) : List Char :=
  List.intercalate ['/'] (normalizeSegs allowAboveRoot [] (splitSep path))

/-- The function `path.posix.normalize`. -/
def normalize (path : List Char) : List Char :=
  if path = [] then ['.']
  else
    let isAbsolute := path.head? = some '/'
    let trailingSeparator := path.getLast? = some '/'
    let res := normalizeString path (!decide isAbsolute)
    if res = [] then
      if isAbsolute then ['/']
      else if trailingSeparator then ['.', '/'] else ['.']
    else
      let res := if trailingSeparator then res ++ ['/'] else res
      if isAbsolute then '/' :: res else res

/-- The function `path.posix.join(...args)`: the non-empty arguments joined by
`/`, then normalized; `.` when there is nothing to join. -/
def join (args : List String) : String :=
  match (args.map String.data).filter (fun a => a ≠ []) with
  | [] => "."
  | parts => String.mk (normalize (List.intercalate ['/'] parts))

/-! ## `POST` of `src/app/api/analyze-video/route.js` -/

/-- The constant `maxAttempts` (route.js line 69). -/
def maxAttempts : Nat := 30

/-- The error thrown by the readiness check (route.js line 82). -/
def processingFailed : String := "File processing failed or timeout reached"

/-- The instruction sent with the file (route.js line 112). -/
def analysisPrompt : String :=
  "Please analyze this video and provide:\n1. Main subject/topic\n2. Key events and timestamps\n3. Overall summary"

/-- The message of the progress event of one loop iteration (route.js line 74),
`attempt` being `attempts + 1`. -/
def attemptMessage (attempt : Nat) : String :=
  "Processing video (attempt " ++ toString attempt ++ "/" ++ toString maxAttempts ++ ")"

/-- The `while` loop of route.js lines 71-79, entered with the current snapshot
and counter; it yields the last snapshot fetched and the final counter. The call
of `getFile` made when the counter is `attempts` is call number `attempts + 1`
of the invocation (call 0 is the one of line 67). -/
def pollLoop (getFile : Nat → Except String GeminiFile) (name : String)
    (geminiFile : GeminiFile) (attempts : Nat) : Run (GeminiFile × Nat) :=
  if _h : geminiFile.state = "PROCESSING" ∧ attempts < maxAttempts then do
    emitProgress "analysisStatus" "processing" (attemptMessage (attempts + 1))
    perform (.setTimeout 10000)
    let geminiFile ← call (.getFile name) (getFile (attempts + 1))
    pollLoop getFile name geminiFile (attempts + 1)
  else pure (geminiFile, attempts)
termination_by maxAttempts - attempts
decreasing_by omega

/-- The value of `filePath` (route.js lines 42-44) for working directory `cwd`,
clock value `now` and original file name `name`. -/
def storagePath (cwd : String) (now : Nat) (name : String) : String :=
  let uploadDir := join [cwd, "uploads"]
  let fileName := toString now ++ "-" ++ name
  join [uploadDir, fileName]

/-- Step 2, route.js lines 34-46: read the payload and write it under
`uploads/` in the working directory as `${Date.now()}-${file.name}`. -/
def persist (env : Env) (file : VideoFile) : Run String := do
  emitProgress "analysisStatus" "uploading" "Uploading video to server"
  let buffer ← await file.arrayBuffer
  let filePath := storagePath env.cwd env.now file.name
  call (.writeFile filePath buffer) (env.writeFile filePath buffer)
  pure filePath

/-- Step 3, route.js lines 48-60: register the file with the file manager;
the value is `uploadResult.file.name`. -/
def submit (env : Env) (file : VideoFile) (filePath : String) : Run String := do
  emitProgress "analysisStatus" "processing" "Uploading to Gemini"
  call (.uploadFile filePath file.type file.name) (env.uploadFile filePath file.type file.name)

/-- Steps 4 and 5, route.js lines 62-83: first fetch, poll loop, readiness check. -/
def pollStage (env : Env) (name : String) : Run GeminiFile := do
  emitProgress "analysisStatus" "processing" "Waiting for Gemini processing"
  let geminiFile ← call (.getFile name) (env.getFile name 0)
  let (geminiFile, _) ← pollLoop (env.getFile name) name geminiFile 0
  if geminiFile.state ≠ "ACTIVE" then throwNew processingFailed
  else pure geminiFile

/-- Step 6, route.js lines 85-114: one message to a fresh chat session. -/
def analyze (env : Env) (geminiFile : GeminiFile) : Run ChatResult := do
  emitProgress "analysisStatus" "analyzing" "Analyzing video content"
  call (.sendMessage geminiFile.mimeType geminiFile.uri analysisPrompt)
    (env.sendMessage geminiFile.mimeType geminiFile.uri analysisPrompt)

/-- Step 7, route.js lines 116-120: the inner `try { await unlink(filePath) }
catch (error) { console.error(..) }`. -/
def cleanup (env : Env) (filePath : String) : Run Unit :=
  match env.unlink filePath with
  | .ok _ => ⟨[.unlink filePath], .ok ()⟩
  | .error m => ⟨[.unlink filePath, .consoleError "Error cleaning up file:" m], .ok ()⟩

/-- Steps 2 to 5 in sequence: the storage path and the snapshot that passed the
readiness check. -/
def steps2to5 (env : Env) (file : VideoFile) : Run (String × GeminiFile) := do
  let filePath ← persist env file
  let name ← submit env file filePath
  let geminiFile ← pollStage env name
  pure (filePath, geminiFile)

/-- Steps 2 to 6 in sequence (route.js lines 34-114). -/
def steps2to6 (env : Env) (file : VideoFile) : Run (String × ChatResult) := do
  let (filePath, geminiFile) ← steps2to5 env file
  let result ← analyze env geminiFile
  pure (filePath, result)

/-- The body of the outer `try` (route.js lines 15-130). -/
def tryBlock (env : Env) : Run Response := do
  emitProgress "analysisStatus" "started" "Starting video analysis"
  let file ← await env.formData
  match file with
  | none => do
    emitProgress "analysisStatus" "error" "No video file provided"
    pure ⟨400, [("error", "No video file provided")]⟩
  | some file => do
    let (filePath, result) ← steps2to6 env file
    cleanup env filePath
    emitProgress "analysisStatus" "completed" "Analysis completed"
    let text ← await result.text
    pure ⟨200, [("analysis", text), ("status", "success")]⟩

/-- What one invocation did and what it returned. -/
structure Outcome where
  trace : List Effect
  response : Response
deriving DecidableEq, Repr

/-- The handler `POST(request)`: the `try` block, and the `catch` of route.js
lines 132-143 when it throws. -/
def POST (env : Env) : Outcome :=
  match (tryBlock env).result with
  | .ok response => ⟨(tryBlock env).trace, response⟩
  | .error message =>
    ⟨(tryBlock env).trace ++
        [.emitProgress "analysisStatus" "error" ("Error: " ++ message),
         .consoleError "Error processing video:" message],
      ⟨500, [("error", "Error processing video"), ("details", message)]⟩⟩

/-- The progress events published in a trace, as `(status, message)`, in order. -/
def emitted : List Effect → List (String × String)
  | [] => []
  | .emitProgress _ status message :: rest => (status, message) :: emitted rest
  | _ :: rest => emitted rest

/-- The statuses of the progress events published in a trace, in order. -/
def statuses (trace : List Effect) : List String := (emitted trace).map Prod.fst

/-- The messages of the `processing` events published in a trace, in order. -/
def processingMessages (trace : List Effect) : List String :=
  ((emitted trace).filter (fun e => e.1 = "processing")).map Prod.snd

/-- The paths for which a trace holds a call of `unlink`. -/
def unlinked : List Effect → List String
  | [] => []
  | .unlink path :: rest => path :: unlinked rest
  | _ :: rest => unlinked rest

/-- The paths for which a trace holds a call of `writeFile`. -/
def written : List Effect → List String
  | [] => []
  | .writeFile path _ :: rest => path :: written rest
  | _ :: rest => written rest

/-- The effects that belong to steps 2 to 5: `uploading` and `processing`
events, the local write, the upload, the fetches and the waits. -/
def Effect.beforeAnalysis : Effect → Bool
  | .emitProgress _ status _ => status = "uploading" || status = "processing"
  | .writeFile _ _ => true
  | .uploadFile _ _ _ => true
  | .getFile _ => true
  | .setTimeout _ => true
  | _ => false

/-- The effects that belong to steps 2 to 6: those of steps 2 to 5, the
`analyzing` event and the chat message. -/
def Effect.beforeCleanup : Effect → Bool
  | .emitProgress _ status _ =>
    status = "uploading" || status = "processing" || status = "analyzing"
  | .sendMessage _ _ _ => true
  | e => e.beforeAnalysis

/-- Whether an effect is a call to the remote inference service. -/
def Effect.isRemote : Effect → Bool
  | .uploadFile _ _ _ => true
  | .getFile _ => true
  | .sendMessage _ _ _ => true
  | _ => false

/-! ## Concrete environments -/

/-- An upload `clip.mp4` of three bytes. -/
def sampleFile : VideoFile := ⟨"clip.mp4", "video/mp4", .ok [1, 2, 3]⟩

/-- An environment in which every external call succeeds and every snapshot
of the remote file has the given state. -/
def sampleEnv (state : String) : Env where
  formData := .ok (some sampleFile)
  now := 17
  cwd := "/app"
  writeFile := fun _ _ => .ok ()
  uploadFile := fun _ _ _ => .ok "files/abc"
  getFile := fun _ _ => .ok ⟨state, "video/mp4", "https://example.test/files/abc"⟩
  sendMessage := fun _ _ _ => .ok ⟨.ok "analysis text"⟩
  unlink := fun _ => .ok ()

/-- As `sampleEnv`, the remote file being `PROCESSING` at the first two
fetches and `ACTIVE` from the third on. -/
def pollingEnv : Env :=
  { sampleEnv "ACTIVE" with
    getFile := fun _ k =>
      .ok ⟨if k < 2 then "PROCESSING" else "ACTIVE", "video/mp4",
        "https://example.test/files/abc"⟩ }

/-- As `sampleEnv "ACTIVE"`, the upload to the file manager being rejected. -/
def uploadFailEnv : Env :=
  { sampleEnv "ACTIVE" with uploadFile := fun _ _ _ => .error "upload rejected" }

/-- As `sampleEnv "ACTIVE"`, the chat call failing. -/
def analysisFailEnv : Env :=
  { sampleEnv "ACTIVE" with sendMessage := fun _ _ _ => .error "quota exceeded" }

/-- As `sampleEnv "ACTIVE"`, the request carrying no `video` field. -/
def noVideoEnv : Env :=
  { sampleEnv "ACTIVE" with formData := .ok none }

/-- As `sampleEnv "ACTIVE"`, the deletion of the temporary file failing. -/
def unlinkFailEnv : Env :=
  { sampleEnv "ACTIVE" with unlink := fun _ => .error "EPERM: operation not permitted" }

end AnalyzeVideo

/-! ## The live-update server of `src/server.js` -/

namespace LiveUpdate

/-- What the socket.io server reports: a client socket connects or disconnects. -/
inductive ConnEvent where
  | connection (socket : Nat)
  | disconnect (socket : Nat)
deriving DecidableEq, Repr

/-- The sockets currently connected, in order of connection, and the value of
the process-wide `global.socketIo` (`none` while it is undefined). -/
structure State where
  connected : List Nat
  socketIo : Option Nat
deriving DecidableEq, Repr

/-- The server before any client has connected. -/
def State.initial : State := ⟨[], none⟩

/-- One connection event (server.js lines 19-28). The `connection` handler
stores the new socket in `global.socketIo`; the `disconnect` handler only logs,
so the global keeps its value. -/
def step (s : State) : ConnEvent → State
  | .connection socket => ⟨s.connected ++ [socket], some socket⟩
  | .disconnect socket => ⟨s.connected.filter (fun c => c ≠ socket), s.socketIo⟩

/-- The state after a sequence of connection events. -/
def run (events : List ConnEvent) : State := events.foldl step State.initial

/-- One message received by the client of a socket. -/
structure Delivery where
  socket : Nat
  event : String
  status : String
  message : String
deriving DecidableEq, Repr

/-- The call `socket.emit(event, data)` on one server-side socket: it reaches the
client of that socket, if still connected, and nobody else. -/
def socketEmit (s : State) (socket : Nat) (event status message : String) : List Delivery :=
  if socket ∈ s.connected then [⟨socket, event, status, message⟩] else []

/-- The helper `emitProgress(event, data)` (route.js lines 7-11), with
`data = {status, message}`: the messages delivered. -/
def emitProgress (s : State) (event status message : String) : List Delivery :=
  match s.socketIo with
  | some socket => socketEmit s socket event status message
  | none => []

/-- The sockets whose client received something. -/
def receivers (ds : List Delivery) : List Nat := ds.map Delivery.socket

end LiveUpdate

/-! ## The keyword scanner of `src/app/utils/securityAnalysis.js` -/

namespace SecurityAnalysis

/-- A JavaScript value as `JSON.parse` can produce it, and `undefined`. A
number is given by its canonical text `String(n)`. -/
inductive JsValue where
  | undefined
  | null
  | bool (b : Bool)
  | number (text : String)
  | string (s : String)
  | array (items : List JsValue)
  | object (fields : List (String × JsValue))

/-- The built-ins the scanner calls: `String.prototype.toLowerCase` and
`JSON.parse`, the latter throwing on text that is not valid JSON. -/
structure Builtins where
  toLowerCase : String → String
  parse : String → Except String JsValue

/-- The list `suspiciousKeywords` (securityAnalysis.js lines 1-18). -/
def suspiciousKeywords : List String :=
  ["intruder", "break-in", "suspicious", "unknown person", "stranger", "trespassing",
    "trespasser", "break in", "breaking in", "forced entry", "unauthorized", "burglar",
    "theft", "stealing", "night", "masked"]

/-- The value returned by `analyzeForSecurity`. -/
structure SecurityResult where
  hasSuspiciousActivity : Bool
  flags : List String
  timestamps : List JsValue
  severity : String

/-- Truthiness, as tested by `if (v)`. -/
def JsValue.truthy : JsValue → Bool
  | .undefined => false
  | .null => false
  | .bool b => b
  | .number text => text ≠ "0" && text ≠ "NaN"
  | .string s => s ≠ ""
  | .array _ => true
  | .object _ => true

/-- The property read `v.key` for a key that no prototype defines: a
`TypeError` on `undefined` and `null`, the own field of an object, and
`undefined` otherwise. -/
def JsValue.get (v : JsValue) (key : String) : Except String JsValue :=
  match v with
  | .undefined => .error ("Cannot read properties of undefined (reading " ++ key ++ ")")
  | .null => .error ("Cannot read properties of null (reading " ++ key ++ ")")
  | .object fields => .ok ((fields.lookup key).getD .undefined)
  | _ => .ok .undefined

/-- The call `v.toLowerCase()`: defined on strings, a `TypeError` on any other value. -/
def JsValue.toLowerCase (rt : Builtins) : JsValue → Except String String
  | .string s => .ok (rt.toLowerCase s)
  | _ => .error "toLowerCase is not a function"

mutual
/-- The conversion of a value inside a template literal. An object with an own
`toString` field (never callable in JSON data) cannot be converted. -/
def JsValue.toText : JsValue → Except String String
  | .undefined => .ok "undefined"
  | .null => .ok "null"
  | .bool b => .ok (if b then "true" else "false")
  | .number text => .ok text
  | .string s => .ok s
  | .array items => joinItems items
  | .object fields =>
    if (fields.map Prod.fst).contains "toString" then
      .error "Cannot convert object to primitive value"
    else .ok "[object Object]"
/-- The method `Array.prototype.join` with the separator `,`. -/
def joinItems : List JsValue → Except String String
  | [] => .ok ""
  | [x] => itemText x
  | x :: y :: rest =>
    match itemText x, joinItems (y :: rest) with
    | .ok a, .ok b => .ok (a ++ "," ++ b)
    | .error m, _ => .error m
    | _, .error m => .error m
/-- One item of `join`: empty for `undefined` and `null`. -/
def itemText : JsValue → Except String String
  | .undefined => .ok ""
  | .null => .ok ""
  | v => JsValue.toText v
end

/-- Whether `search` occurs in `s` as a contiguous run of characters. -/
def includesChars : List Char → List Char → Bool
  | [], search => search.isEmpty
  | c :: cs, search => search.isPrefixOf (c :: cs) || includesChars cs search

/-- The call `s.includes(search)`. -/
def includes (s search : String) : Bool := includesChars s.data search.data

/-- The zero result returned by the `catch` (securityAnalysis.js lines 71-76). -/
def zeroResult : SecurityResult :=
  { hasSuspiciousActivity := false, flags := [], timestamps := [], severity := "low" }

/-- The block `if (value) { .. }` of lines 29-36 and of lines 54-61, which
differ in the text of the flag only (`label`): the truthy field is lower-cased
and one flag is pushed for every keyword that it includes, in list order. -/
def scanField (rt : Builtins) (value : JsValue) (label : String → String)
    (flags : List String) : Except String (List String) :=
  if value.truthy then do
    let lowered ← value.toLowerCase rt
    pure (suspiciousKeywords.foldl
      (fun flags keyword =>
        if includes lowered (rt.toLowerCase keyword) then flags ++ [label keyword] else flags)
      flags)
  else pure flags

/-- The body of `data.key_events.forEach(event => ..)` for one element (lines
41-49), on the current `flags` and `timestamps`. -/
def scanEvent (rt : Builtins) (event : JsValue) (state : List String × List JsValue) :
    Except String (List String × List JsValue) := do
  let text ← event.get "event"
  if text.truthy then
    let eventLower ← text.toLowerCase rt
    suspiciousKeywords.foldlM
      (fun (state : List String × List JsValue) keyword =>
        if includes eventLower (rt.toLowerCase keyword) then do
          let timestamp ← event.get "timestamp"
          let shown ← timestamp.toText
          pure (state.1 ++ ["Suspicious activity detected at " ++ shown ++ ": " ++ keyword],
            state.2 ++ [timestamp])
        else pure state)
      state
  else pure state

/-- The block `if (Array.isArray(data.key_events)) { .. }` of lines 39-51. -/
def scanEvents (rt : Builtins) (keyEvents : JsValue) (state : List String × List JsValue) :
    Except String (List String × List JsValue) :=
  match keyEvents with
  | .array items => items.foldlM (fun state event => scanEvent rt event state) state
  | _ => pure state

/-- Lines 25-68: the scan of the parsed `data` and the result object. -/
def scanData (rt : Builtins) (data : JsValue) : Except String SecurityResult := do
  let flags : List String := []
  let timestamps : List JsValue := []
  let mainSubject ← data.get "main_subject"
  let flags ← scanField rt mainSubject
    (fun keyword => "Suspicious activity detected in main subject: " ++ keyword) flags
  let keyEvents ← data.get "key_events"
  let (flags, timestamps) ← scanEvents rt keyEvents (flags, timestamps)
  let overallSummary ← data.get "overall_summary"
  let flags ← scanField rt overallSummary
    (fun keyword => "Suspicious activity detected in summary: " ++ keyword) flags
  pure
    { hasSuspiciousActivity := decide (flags.length > 0)
      flags := flags
      timestamps := timestamps
      severity := if flags.length > 2 then "high" else if flags.length > 0 then "medium" else "low" }

/-- Line 23: `data` is the parsed text when `analysis` is a string, and
`analysis` itself otherwise. -/
def parseInput (rt : Builtins) (analysis : JsValue) : Except String JsValue :=
  match analysis with
  | .string s => rt.parse s
  | v => .ok v

/-- The body of the `try` (lines 22-68). -/
def tryBody (rt : Builtins) (analysis : JsValue) : Except String SecurityResult := do
  let data ← parseInput rt analysis
  scanData rt data

/-- The function `analyzeForSecurity(analysis)`: whatever the `try` block
throws is caught (and logged), and the zero result is returned. -/
def analyzeForSecurity (rt : Builtins) (analysis : JsValue) : SecurityResult :=
  match tryBody rt analysis with
  | .ok result => result
  | .error _ => zeroResult

/-! ### Well-formed payloads and the scan in the words of the specification -/

/-- One entry of `key_events` with text fields. -/
structure KeyEvent where
  timestamp : String
  event : Option String

/-- A well-formed analysis payload: each of the three fields is absent or
holds text, respectively a list of key events. -/
structure Payload where
  main_subject : Option String
  key_events : Option (List KeyEvent)
  overall_summary : Option String

/-- The object for a field list in which absent fields are left out. -/
def optionalFields (fields : List (String × Option JsValue)) : List (String × JsValue) :=
  fields.filterMap (fun kv => kv.2.map (fun v => (kv.1, v)))

/-- A key event as a JavaScript object. -/
def KeyEvent.toJs (e : KeyEvent) : JsValue :=
  .object (optionalFields [("timestamp", some (.string e.timestamp)), ("event", e.event.map .string)])

/-- A payload as a JavaScript object. -/
def Payload.toJs (p : Payload) : JsValue :=
  .object (optionalFields
    [("main_subject", p.main_subject.map .string),
     ("key_events", p.key_events.map (fun es => .array (es.map KeyEvent.toJs))),
     ("overall_summary", p.overall_summary.map .string)])

/-- The keywords, in list order, that occur case-insensitively as a substring
of a text field; an absent field has none. -/
def specMatches (rt : Builtins) (field : Option String) : List String :=
  match field with
  | none => []
  | some text =>
    suspiciousKeywords.filter
      (fun keyword => (rt.toLowerCase keyword).data <:+: (rt.toLowerCase text).data)

/-- The flags in the words of the specification: main subject, then each key
event in order, then the summary; keywords in list order. -/
def specFlags (rt : Builtins) (p : Payload) : List String :=
  (specMatches rt p.main_subject).map
      (fun keyword => "Suspicious activity detected in main subject: " ++ keyword) ++
    ((p.key_events.getD []).flatMap fun e =>
      (specMatches rt e.event).map
        (fun keyword => "Suspicious activity detected at " ++ e.timestamp ++ ": " ++ keyword)) ++
    (specMatches rt p.overall_summary).map
      (fun keyword => "Suspicious activity detected in summary: " ++ keyword)

/-- The timestamps in the words of the specification: that of each key-event match. -/
def specTimestamps (rt : Builtins) (p : Payload) : List JsValue :=
  (p.key_events.getD []).flatMap fun e =>
    (specMatches rt e.event).map (fun _ => JsValue.string e.timestamp)

/-- The severity in the words of the specification. -/
def specSeverity (flagCount : Nat) : String :=
  if flagCount > 2 then "high" else if 1 ≤ flagCount then "medium" else "low"

/-- The result in the words of the specification. -/
def specResult (rt : Builtins) (p : Payload) : SecurityResult :=
  { hasSuspiciousActivity := decide (specFlags rt p ≠ [])
    flags := specFlags rt p
    timestamps := specTimestamps rt p
    severity := specSeverity (specFlags rt p).length }

/-- Lower-casing of the letters `A`-`Z`, on which `String.prototype.toLowerCase`
agrees for text without other upper-case letters. -/
def asciiLower (s : String) : String := String.mk (s.data.map Char.toLower)

/-- Built-ins for the examples: ASCII lower-casing, and a `JSON.parse` that
knows the text of one payload and rejects any other text. -/
def sampleBuiltins (text : String) (value : JsValue) : Builtins where
  toLowerCase := asciiLower
  parse := fun s => if s = text then .ok value else .error "Unexpected token"

/-- The JSON text of `strangerPayload`. -/
def strangerText : String := "\x7b\"main_subject\": \"a stranger at night\"\x7d"

/-- The payload `{main_subject: 'a stranger at night'}`. -/
def strangerPayload : Payload :=
  { main_subject := some "a stranger at night", key_events := none, overall_summary := none }

/-- The built-ins of the examples. -/
def strangerBuiltins : Builtins := sampleBuiltins strangerText strangerPayload.toJs

/-- A payload with three flags: one in the main subject and two at one key event. -/
def burglarPayload : Payload :=
  { main_subject := some "Night delivery"
    key_events := some [⟨"0:05", some "A MASKED person appears"⟩, ⟨"0:09", none⟩,
      ⟨"0:12", some "Forced entry through the back door"⟩]
    overall_summary := some "" }

end SecurityAnalysis

/-! ## `POST` of `src/app/api/research-chat/route.js` -/

namespace ResearchChat

open SecurityAnalysis (JsValue)

/-- The object `generationConfig` (research-chat route.js lines 21-26). -/
structure GenerationConfig where
  temperature : ℚ
  topP : ℚ
  topK : Nat
  maxOutputTokens : Nat

/-- The constant `generationConfig` of the route. -/
def generationConfig : GenerationConfig :=
  { temperature := 1, topP := 95 / 100, topK := 40, maxOutputTokens := 8192 }

/-- What `model.startChat({generationConfig, history})` is called with, on the
model obtained by `getGenerativeModel({model})`: a session is determined by
these values and holds nothing else. -/
structure ChatSession where
  model : String
  generationConfig : GenerationConfig
  history : JsValue

/-- Value of `await chatSession.sendMessage(text)`; `text` is the outcome of
`response.text()`. -/
structure ChatResult where
  text : Except String String

/-- Everything outside the route handler: the outcome of `await
request.json()`, whether `startChat` accepts the session, and the reply of a
session to a message. -/
structure Env where
  json : Except String JsValue
  startChat : ChatSession → Except String Unit
  sendMessage : ChatSession → JsValue → Except String ChatResult

/-- Observable effects of one invocation, in program order. -/
inductive Effect where
  | startChat (session : ChatSession)
  | sendMessage (text : JsValue)
  | consoleError (label message : String)

/-- The session started for the destructured `history` (lines 17-31): the
history is `history || []`. -/
def sessionFor (history : JsValue) : ChatSession :=
  { model := "gemini-2.0-flash-exp"
    generationConfig := generationConfig
    history := if history.truthy then history else .array [] }

/-- The body of the `try` (research-chat route.js lines 6-40): the effects
performed and either the response or the message of the thrown error. -/
def tryBlock (env : Env) : List Effect × Except String AnalyzeVideo.Response :=
  match env.json with
  | .error m => ([], .error m)
  | .ok body =>
    match body.get "text" with
    | .error m => ([], .error m)
    | .ok text =>
      match body.get "history" with
      | .error m => ([], .error m)
      | .ok history =>
        if !text.truthy then ([], .ok ⟨400, [("error", "Text is required")]⟩)
        else
          let chatSession := sessionFor history
          match env.startChat chatSession with
          | .error m => ([.startChat chatSession], .error m)
          | .ok _ =>
            match env.sendMessage chatSession text with
            | .error m => ([.startChat chatSession, .sendMessage text], .error m)
            | .ok result =>
              match result.text with
              | .error m => ([.startChat chatSession, .sendMessage text], .error m)
              | .ok responseText =>
                ([.startChat chatSession, .sendMessage text],
                  .ok ⟨200, [("response", responseText), ("status", "success")]⟩)

/-- What one invocation did and what it returned. -/
structure Outcome where
  trace : List Effect
  response : AnalyzeVideo.Response

/-- The handler `POST(request)`: the `try` block, and the `catch` of lines
42-51 when it throws. -/
def POST (env : Env) : Outcome :=
  match tryBlock env with
  | (trace, .ok response) => ⟨trace, response⟩
  | (trace, .error message) =>
    ⟨trace ++ [.consoleError "Error in research chat:" message],
      ⟨500, [("error", "Error processing request"), ("details", message)]⟩⟩

/-- The history `[{role: 'user', content: 'hi'}]`. -/
def sampleHistory : List JsValue :=
  [.object [("role", .string "user"), ("content", .string "hi")]]

/-- A request `{text: 'follow up', history: sampleHistory}` to a model that
accepts every session and answers `model reply`. -/
def sampleEnv : Env where
  json := .ok (.object [("text", .string "follow up"), ("history", .array sampleHistory)])
  startChat := fun _ => .ok ()
  sendMessage := fun _ _ => .ok ⟨.ok "model reply"⟩

end ResearchChat

/-! ## Theorems -/

namespace AnalyzeVideo

theorem Run.pure_eq {α : Type} (a : α) : (pure a : Run α) = ⟨[], .ok a⟩ := rfl

theorem Run.bind_eq {α β : Type} (r : Run α) (f : α → Run β) : (r >>= f) = Run.bind r f := rfl

theorem Run.bind_mk_ok {α β : Type} (t : List Effect) (a : α) (f : α → Run β) :
    Run.bind ⟨t, .ok a⟩ f = ⟨t ++ (f a).trace, (f a).result⟩ := rfl

theorem Run.bind_mk_error {α β : Type} (t : List Effect) (m : String) (f : α → Run β) :
    Run.bind (⟨t, .error m⟩ : Run α) f = ⟨t, .error m⟩ := rfl

theorem emitted_append (s t : List Effect) : emitted (s ++ t) = emitted s ++ emitted t := by
  induction s with
  | nil => rfl
  | cons e s ih => cases e <;> simp [emitted, ih]

theorem pollLoop_done (getFile : Nat → Except String GeminiFile) (name : String)
    (g : GeminiFile) (a : Nat) (h : ¬ (g.state = "PROCESSING" ∧ a < maxAttempts)) :
    pollLoop getFile name g a = ⟨[], .ok (g, a)⟩ := by
  rw [pollLoop]
  simp only [h, dite_false]
  rfl

theorem pollLoop_ok (getFile : Nat → Except String GeminiFile) (name : String)
    (g g' : GeminiFile) (a : Nat) (h : g.state = "PROCESSING" ∧ a < maxAttempts)
    (hg : getFile (a + 1) = .ok g') :
    pollLoop getFile name g a =
      ⟨[.emitProgress "analysisStatus" "processing" (attemptMessage (a + 1)), .setTimeout 10000,
          .getFile name] ++ (pollLoop getFile name g' (a + 1)).trace,
        (pollLoop getFile name g' (a + 1)).result⟩ := by
  rw [pollLoop]
  simp only [h, and_self, dite_true, Run.bind_eq, emitProgress, perform, call, hg, Run.bind_mk_ok]
  rfl

theorem pollLoop_error (getFile : Nat → Except String GeminiFile) (name : String)
    (g : GeminiFile) (a : Nat) (m : String) (h : g.state = "PROCESSING" ∧ a < maxAttempts)
    (hg : getFile (a + 1) = .error m) :
    pollLoop getFile name g a =
      ⟨[.emitProgress "analysisStatus" "processing" (attemptMessage (a + 1)), .setTimeout 10000,
          .getFile name], .error m⟩ := by
  rw [pollLoop]
  simp only [h, and_self, dite_true, Run.bind_eq, emitProgress, perform, call, hg, Run.bind_mk_ok,
    Run.bind_mk_error]
  rfl
/-- The events published by the loop are the attempt events `a+1, a+2, ..`, and
a loop that returns has run as many iterations as it published events. -/
theorem pollLoop_emitted (getFile : Nat → Except String GeminiFile) (name : String) :
    ∀ (d a : Nat) (g : GeminiFile), a + d = maxAttempts →
      ∃ n, n ≤ d ∧
        emitted (pollLoop getFile name g a).trace =
          (List.range' (a + 1) n).map (fun i => ("processing", attemptMessage i)) ∧
        ∀ g' a', (pollLoop getFile name g a).result = .ok (g', a') → a' = a + n := by
  intro d
  induction d with
  | zero =>
    intro a g had
    have hn : ¬ (g.state = "PROCESSING" ∧ a < maxAttempts) := by omega
    refine ⟨0, le_refl _, ?_, ?_⟩
    · rw [pollLoop_done _ _ _ _ hn]; rfl
    · intro g' a' h
      rw [pollLoop_done _ _ _ _ hn] at h
      simp only [Except.ok.injEq, Prod.mk.injEq] at h
      omega
  | succ d ih =>
    intro a g had
    by_cases hc : g.state = "PROCESSING" ∧ a < maxAttempts
    · cases hg : getFile (a + 1) with
      | error m =>
        refine ⟨1, by omega, ?_, ?_⟩
        · rw [pollLoop_error _ _ _ _ _ hc hg]; rfl
        · intro g' a' h
          rw [pollLoop_error _ _ _ _ _ hc hg] at h
          cases h
      | ok g1 =>
        obtain ⟨n, hn, hem, hres⟩ := ih (a + 1) g1 (by omega)
        refine ⟨n + 1, by omega, ?_, ?_⟩
        · rw [pollLoop_ok _ _ _ _ _ hc hg]
          simp only [emitted_append, hem, List.range'_succ, List.map_cons]
          rfl
        · intro g' a' h
          rw [pollLoop_ok _ _ _ _ _ hc hg] at h
          have := hres g' a' h
          omega
    · refine ⟨0, by omega, ?_, ?_⟩
      · rw [pollLoop_done _ _ _ _ hc]; rfl
      · intro g' a' h
        rw [pollLoop_done _ _ _ _ hc] at h
        simp only [Except.ok.injEq, Prod.mk.injEq] at h
        omega

/-- Over a stream of snapshots the loop stops at the first snapshot that is
not `PROCESSING`, or at the ceiling. -/
theorem pollLoop_snapshots (getFile : Nat → Except String GeminiFile) (name : String)
    (snap : Nat → GeminiFile) (hget : ∀ k, getFile k = .ok (snap k)) :
    ∀ (d a : Nat), a + d = maxAttempts →
      ∃ a', a ≤ a' ∧ a' ≤ maxAttempts ∧
        (∀ k, a ≤ k → k < a' → (snap k).state = "PROCESSING") ∧
        (a' < maxAttempts → (snap a').state ≠ "PROCESSING") ∧
        (pollLoop getFile name (snap a) a).result = .ok (snap a', a') ∧
        emitted (pollLoop getFile name (snap a) a).trace =
          (List.range' (a + 1) (a' - a)).map (fun i => ("processing", attemptMessage i)) := by
  intro d
  induction d with
  | zero =>
    intro a had
    have hn : ¬ ((snap a).state = "PROCESSING" ∧ a < maxAttempts) := by omega
    refine ⟨a, le_refl _, by omega, by intro k h1 h2; omega, by intro h; omega, ?_, ?_⟩
    · rw [pollLoop_done _ _ _ _ hn]
    · rw [pollLoop_done _ _ _ _ hn]; simp [emitted]
  | succ d ih =>
    intro a had
    by_cases hc : (snap a).state = "PROCESSING" ∧ a < maxAttempts
    · obtain ⟨a', h1, h2, h3, h4, h5, h6⟩ := ih (a + 1) (by omega)
      refine ⟨a', by omega, h2, ?_, h4, ?_, ?_⟩
      · intro k hk1 hk2
        by_cases hk : k = a
        · rw [hk]; exact hc.1
        · exact h3 k (by omega) hk2
      · rw [pollLoop_ok _ _ _ _ _ hc (hget (a + 1))]; exact h5
      · rw [pollLoop_ok _ _ _ _ _ hc (hget (a + 1))]
        have hsub : a' - a = (a' - (a + 1)) + 1 := by omega
        simp only [emitted_append, h6, hsub, List.range'_succ, List.map_cons]
        rfl
    · refine ⟨a, le_refl _, by omega, by intro k h1 h2; omega, ?_, ?_, ?_⟩
      · intro h hp; exact hc ⟨hp, h⟩
      · rw [pollLoop_done _ _ _ _ hc]
      · rw [pollLoop_done _ _ _ _ hc]; simp [emitted]
theorem Run.bind_of_ok {α β : Type} {r : Run α} {a : α} (h : r.result = .ok a) (f : α → Run β) :
    Run.bind r f = ⟨r.trace ++ (f a).trace, (f a).result⟩ := by
  unfold Run.bind
  rw [h]

theorem Run.bind_of_error {α β : Type} {r : Run α} {m : String} (h : r.result = .error m)
    (f : α → Run β) : Run.bind r f = ⟨r.trace, .error m⟩ := by
  unfold Run.bind
  rw [h]

/-! ### The stages, outcome by outcome -/

theorem persist_of_bufferError (env : Env) (file : VideoFile) (m : String)
    (hb : file.arrayBuffer = .error m) :
    persist env file =
      ⟨[.emitProgress "analysisStatus" "uploading" "Uploading video to server"], .error m⟩ := by
  simp only [persist, Run.bind_eq, emitProgress, perform, await, hb, Run.bind_mk_ok,
    Run.bind_mk_error]
  rfl

theorem persist_of_writeError (env : Env) (file : VideoFile) (buffer : List Nat) (m : String)
    (hb : file.arrayBuffer = .ok buffer)
    (hw : env.writeFile (storagePath env.cwd env.now file.name) buffer = .error m) :
    persist env file =
      ⟨[.emitProgress "analysisStatus" "uploading" "Uploading video to server",
          .writeFile (storagePath env.cwd env.now file.name) buffer], .error m⟩ := by
  simp only [persist, Run.bind_eq, emitProgress, perform, await, call, hb, hw, Run.bind_mk_ok,
    Run.bind_mk_error]
  rfl

theorem persist_of_written (env : Env) (file : VideoFile) (buffer : List Nat)
    (hb : file.arrayBuffer = .ok buffer)
    (hw : env.writeFile (storagePath env.cwd env.now file.name) buffer = .ok ()) :
    persist env file =
      ⟨[.emitProgress "analysisStatus" "uploading" "Uploading video to server",
          .writeFile (storagePath env.cwd env.now file.name) buffer],
        .ok (storagePath env.cwd env.now file.name)⟩ := by
  simp only [persist, Run.bind_eq, Run.pure_eq, emitProgress, perform, await, call, hb, hw,
    Run.bind_mk_ok]
  rfl

theorem submit_eq (env : Env) (file : VideoFile) (filePath : String) :
    submit env file filePath =
      ⟨[.emitProgress "analysisStatus" "processing" "Uploading to Gemini",
          .uploadFile filePath file.type file.name],
        env.uploadFile filePath file.type file.name⟩ := by
  simp only [submit, Run.bind_eq, emitProgress, perform, call, Run.bind_mk_ok]
  rfl

theorem analyze_eq (env : Env) (g : GeminiFile) :
    analyze env g =
      ⟨[.emitProgress "analysisStatus" "analyzing" "Analyzing video content",
          .sendMessage g.mimeType g.uri analysisPrompt],
        env.sendMessage g.mimeType g.uri analysisPrompt⟩ := by
  simp only [analyze, Run.bind_eq, emitProgress, perform, call, Run.bind_mk_ok]
  rfl

theorem pollStage_of_fetchError (env : Env) (name m : String) (h0 : env.getFile name 0 = .error m) :
    pollStage env name =
      ⟨[.emitProgress "analysisStatus" "processing" "Waiting for Gemini processing",
          .getFile name], .error m⟩ := by
  simp only [pollStage, Run.bind_eq, emitProgress, perform, call, h0, Run.bind_mk_ok,
    Run.bind_mk_error]
  rfl

theorem pollStage_of_loopError (env : Env) (name m : String) (g0 : GeminiFile)
    (h0 : env.getFile name 0 = .ok g0)
    (hl : (pollLoop (env.getFile name) name g0 0).result = .error m) :
    pollStage env name =
      ⟨[.emitProgress "analysisStatus" "processing" "Waiting for Gemini processing",
          .getFile name] ++ (pollLoop (env.getFile name) name g0 0).trace, .error m⟩ := by
  simp only [pollStage, Run.bind_eq, emitProgress, perform, call, h0, Run.bind_mk_ok,
    Run.bind_of_error hl]
  rfl

theorem pollStage_of_loopDone (env : Env) (name : String) (g0 g : GeminiFile) (a : Nat)
    (h0 : env.getFile name 0 = .ok g0)
    (hl : (pollLoop (env.getFile name) name g0 0).result = .ok (g, a)) :
    pollStage env name =
      ⟨[.emitProgress "analysisStatus" "processing" "Waiting for Gemini processing",
          .getFile name] ++ (pollLoop (env.getFile name) name g0 0).trace,
        if g.state ≠ "ACTIVE" then .error processingFailed else .ok g⟩ := by
  simp only [pollStage, Run.bind_eq, Run.pure_eq, emitProgress, perform, call, throwNew, h0,
    Run.bind_mk_ok, Run.bind_of_ok hl]
  by_cases hs : g.state = "ACTIVE" <;> simp [hs]
theorem Run.bind_result_ok {α β : Type} {r : Run α} {f : α → Run β} {b : β}
    (h : (Run.bind r f).result = .ok b) : ∃ a, r.result = .ok a ∧ (f a).result = .ok b := by
  cases hr : r.result with
  | error m => rw [Run.bind_of_error hr] at h; cases h
  | ok a => rw [Run.bind_of_ok hr] at h; exact ⟨a, rfl, h⟩

theorem tryBlock_of_formError (env : Env) (m : String) (hf : env.formData = .error m) :
    tryBlock env =
      ⟨[.emitProgress "analysisStatus" "started" "Starting video analysis"], .error m⟩ := by
  simp only [tryBlock, Run.bind_eq, emitProgress, perform, await, hf, Run.bind_mk_ok,
    Run.bind_mk_error]
  rfl

theorem tryBlock_of_noFile (env : Env) (hf : env.formData = .ok none) :
    tryBlock env =
      ⟨[.emitProgress "analysisStatus" "started" "Starting video analysis",
          .emitProgress "analysisStatus" "error" "No video file provided"],
        .ok ⟨400, [("error", "No video file provided")]⟩⟩ := by
  simp only [tryBlock, Run.bind_eq, Run.pure_eq, emitProgress, perform, await, hf, Run.bind_mk_ok]
  rfl

theorem tryBlock_of_failure (env : Env) (file : VideoFile) (m : String)
    (hf : env.formData = .ok (some file)) (h : (steps2to6 env file).result = .error m) :
    tryBlock env =
      ⟨.emitProgress "analysisStatus" "started" "Starting video analysis" ::
          (steps2to6 env file).trace, .error m⟩ := by
  simp only [tryBlock, Run.bind_eq, emitProgress, perform, await, hf, Run.bind_mk_ok,
    Run.bind_of_error h]
  rfl

theorem tryBlock_of_analysis (env : Env) (file : VideoFile) (filePath : String)
    (result : ChatResult) (hf : env.formData = .ok (some file))
    (h : (steps2to6 env file).result = .ok (filePath, result)) :
    tryBlock env =
      ⟨.emitProgress "analysisStatus" "started" "Starting video analysis" ::
          ((steps2to6 env file).trace ++ ((cleanup env filePath).trace ++
            [.emitProgress "analysisStatus" "completed" "Analysis completed"])),
        match result.text with
        | .ok text => .ok ⟨200, [("analysis", text), ("status", "success")]⟩
        | .error m => .error m⟩ := by
  have hc : (cleanup env filePath).result = .ok () := by
    unfold cleanup; cases env.unlink filePath <;> rfl
  simp only [tryBlock, Run.bind_eq, Run.pure_eq, emitProgress, perform, await, hf, Run.bind_mk_ok,
    Run.bind_of_ok h, Run.bind_of_ok hc]
  cases result.text <;> simp [Run.bind_mk_ok, Run.bind_mk_error]
/-! ### Which effects a stage can perform -/

theorem Run.forall_trace_bind {α β : Type} (P : Effect → Prop) (r : Run α) (f : α → Run β)
    (hr : ∀ e ∈ r.trace, P e) (hf : ∀ a, ∀ e ∈ (f a).trace, P e) :
    ∀ e ∈ (Run.bind r f).trace, P e := by
  intro e he
  cases hres : r.result with
  | error m =>
    rw [Run.bind_of_error hres] at he
    exact hr e he
  | ok a =>
    rw [Run.bind_of_ok hres] at he
    rcases List.mem_append.mp he with h | h
    · exact hr e h
    · exact hf a e h

theorem beforeCleanup_of_beforeAnalysis (e : Effect) (h : e.beforeAnalysis = true) :
    e.beforeCleanup = true := by
  cases e <;> simp_all [Effect.beforeAnalysis, Effect.beforeCleanup]

theorem pollLoop_effects (getFile : Nat → Except String GeminiFile) (name : String) :
    ∀ (d a : Nat) (g : GeminiFile), a + d = maxAttempts →
      ∀ e ∈ (pollLoop getFile name g a).trace, e.beforeAnalysis = true := by
  intro d
  induction d with
  | zero =>
    intro a g had e he
    have hn : ¬ (g.state = "PROCESSING" ∧ a < maxAttempts) := by omega
    rw [pollLoop_done _ _ _ _ hn] at he
    cases he
  | succ d ih =>
    intro a g had e he
    by_cases hc : g.state = "PROCESSING" ∧ a < maxAttempts
    · cases hg : getFile (a + 1) with
      | error m =>
        rw [pollLoop_error _ _ _ _ _ hc hg] at he
        simp only [List.mem_cons, List.mem_singleton, List.not_mem_nil, or_false] at he
        rcases he with h | h | h <;> subst h <;> simp [Effect.beforeAnalysis]
      | ok g1 =>
        rw [pollLoop_ok _ _ _ _ _ hc hg] at he
        rcases List.mem_append.mp he with h | h
        · simp only [List.mem_cons, List.mem_singleton, List.not_mem_nil, or_false] at h
          rcases h with h | h | h <;> subst h <;> simp [Effect.beforeAnalysis]
        · exact ih (a + 1) g1 (by omega) e h
    · rw [pollLoop_done _ _ _ _ hc] at he
      cases he

theorem persist_effects (env : Env) (file : VideoFile) :
    ∀ e ∈ (persist env file).trace, e.beforeAnalysis = true := by
  intro e he
  cases hb : file.arrayBuffer with
  | error m =>
    rw [persist_of_bufferError env file m hb] at he
    simp only [List.mem_singleton] at he
    subst he; simp [Effect.beforeAnalysis]
  | ok buffer =>
    cases hw : env.writeFile (storagePath env.cwd env.now file.name) buffer with
    | error m =>
      rw [persist_of_writeError env file buffer m hb hw] at he
      simp only [List.mem_cons, List.mem_singleton, List.not_mem_nil, or_false] at he
      rcases he with h | h <;> subst h <;> simp [Effect.beforeAnalysis]
    | ok u =>
      rw [persist_of_written env file buffer hb hw] at he
      simp only [List.mem_cons, List.mem_singleton, List.not_mem_nil, or_false] at he
      rcases he with h | h <;> subst h <;> simp [Effect.beforeAnalysis]

theorem submit_effects (env : Env) (file : VideoFile) (filePath : String) :
    ∀ e ∈ (submit env file filePath).trace, e.beforeAnalysis = true := by
  intro e he
  rw [submit_eq] at he
  simp only [List.mem_cons, List.mem_singleton, List.not_mem_nil, or_false] at he
  rcases he with h | h <;> subst h <;> simp [Effect.beforeAnalysis]

theorem pollStage_effects (env : Env) (name : String) :
    ∀ e ∈ (pollStage env name).trace, e.beforeAnalysis = true := by
  intro e he
  have hhead : ∀ e ∈ [Effect.emitProgress "analysisStatus" "processing"
      "Waiting for Gemini processing", Effect.getFile name], e.beforeAnalysis = true := by
    intro e he
    simp only [List.mem_cons, List.mem_singleton, List.not_mem_nil, or_false] at he
    rcases he with h | h <;> subst h <;> simp [Effect.beforeAnalysis]
  cases h0 : env.getFile name 0 with
  | error m =>
    rw [pollStage_of_fetchError env name m h0] at he
    exact hhead e he
  | ok g0 =>
    have hloop := pollLoop_effects (env.getFile name) name maxAttempts 0 g0 (by omega)
    cases hl : (pollLoop (env.getFile name) name g0 0).result with
    | error m =>
      rw [pollStage_of_loopError env name m g0 h0 hl] at he
      rcases List.mem_append.mp he with h | h
      · exact hhead e h
      · exact hloop e h
    | ok ga =>
      obtain ⟨g, a⟩ := ga
      rw [pollStage_of_loopDone env name g0 g a h0 hl] at he
      rcases List.mem_append.mp he with h | h
      · exact hhead e h
      · exact hloop e h

theorem steps2to5_effects (env : Env) (file : VideoFile) :
    ∀ e ∈ (steps2to5 env file).trace, e.beforeAnalysis = true := by
  unfold steps2to5
  simp only [Run.bind_eq]
  apply Run.forall_trace_bind _ _ _ (persist_effects env file)
  intro filePath
  apply Run.forall_trace_bind _ _ _ (submit_effects env file filePath)
  intro name
  apply Run.forall_trace_bind _ _ _ (pollStage_effects env name)
  intro g e he
  cases he

theorem steps2to6_effects (env : Env) (file : VideoFile) :
    ∀ e ∈ (steps2to6 env file).trace, e.beforeCleanup = true := by
  unfold steps2to6
  simp only [Run.bind_eq]
  apply Run.forall_trace_bind _ _ _
    (fun e he => beforeCleanup_of_beforeAnalysis e (steps2to5_effects env file e he))
  rintro ⟨filePath, g⟩
  apply Run.forall_trace_bind
  · intro e he
    rw [analyze_eq] at he
    simp only [List.mem_cons, List.mem_singleton, List.not_mem_nil, or_false] at he
    rcases he with h | h <;> subst h <;> simp [Effect.beforeCleanup]
  · intro r e he
    cases he

theorem steps2to6_of_earlyError (env : Env) (file : VideoFile) (m : String)
    (h : (steps2to5 env file).result = .error m) :
    steps2to6 env file = ⟨(steps2to5 env file).trace, .error m⟩ := by
  simp only [steps2to6, Run.bind_eq, Run.bind_of_error h]

theorem statuses_of_beforeAnalysis (t : List Effect) (h : ∀ e ∈ t, e.beforeAnalysis = true) :
    ∀ s ∈ statuses t, s = "uploading" ∨ s = "processing" := by
  induction t with
  | nil => intro s hs; cases hs
  | cons e t ih =>
    intro s hs
    have ht := ih (fun e he => h e (List.mem_cons_of_mem _ he))
    have he := h e (List.mem_cons_self _ _)
    cases e with
    | emitProgress ev st msg =>
      have hs' : s = st ∨ s ∈ statuses t := by simpa [statuses, emitted] using hs
      rcases hs' with h' | h'
      · subst h'; simpa [Effect.beforeAnalysis] using he
      · exact ht s h'
    | _ => exact ht s hs

theorem statuses_of_beforeCleanup (t : List Effect) (h : ∀ e ∈ t, e.beforeCleanup = true) :
    ∀ s ∈ statuses t, s = "uploading" ∨ s = "processing" ∨ s = "analyzing" := by
  induction t with
  | nil => intro s hs; cases hs
  | cons e t ih =>
    intro s hs
    have ht := ih (fun e he => h e (List.mem_cons_of_mem _ he))
    have he := h e (List.mem_cons_self _ _)
    cases e with
    | emitProgress ev st msg =>
      have hs' : s = st ∨ s ∈ statuses t := by simpa [statuses, emitted] using hs
      rcases hs' with h' | h'
      · subst h'; simpa [Effect.beforeCleanup, or_assoc] using he
      · exact ht s h'
    | _ => exact ht s hs

theorem unlinked_of_beforeCleanup (t : List Effect) (h : ∀ e ∈ t, e.beforeCleanup = true) :
    unlinked t = [] := by
  induction t with
  | nil => rfl
  | cons e t ih =>
    have ht := ih (fun e he => h e (List.mem_cons_of_mem _ he))
    have he := h e (List.mem_cons_self _ _)
    cases e with
    | unlink path => exact absurd he (by simp [Effect.beforeCleanup, Effect.beforeAnalysis])
    | _ => exact ht
theorem steps2to5_of_submitted (env : Env) (file : VideoFile) (buffer : List Nat) (name : String)
    (hbuf : file.arrayBuffer = .ok buffer)
    (hwrite : env.writeFile (storagePath env.cwd env.now file.name) buffer = .ok ())
    (hup : env.uploadFile (storagePath env.cwd env.now file.name) file.type file.name = .ok name) :
    steps2to5 env file =
      ⟨[.emitProgress "analysisStatus" "uploading" "Uploading video to server",
          .writeFile (storagePath env.cwd env.now file.name) buffer,
          .emitProgress "analysisStatus" "processing" "Uploading to Gemini",
          .uploadFile (storagePath env.cwd env.now file.name) file.type file.name] ++
          (pollStage env name).trace,
        match (pollStage env name).result with
        | .ok g => .ok (storagePath env.cwd env.now file.name, g)
        | .error m => .error m⟩ := by
  simp only [steps2to5, Run.bind_eq, Run.pure_eq, persist_of_written env file buffer hbuf hwrite,
    submit_eq, hup, Run.bind_mk_ok]
  cases hp : (pollStage env name).result with
  | error m => simp [Run.bind_of_error hp]
  | ok g => simp [Run.bind_of_ok hp]

theorem POST_of_failure (env : Env) (file : VideoFile) (m : String)
    (hf : env.formData = .ok (some file)) (h : (steps2to6 env file).result = .error m) :
    POST env =
      ⟨.emitProgress "analysisStatus" "started" "Starting video analysis" ::
          ((steps2to6 env file).trace ++
            [.emitProgress "analysisStatus" "error" ("Error: " ++ m),
             .consoleError "Error processing video:" m]),
        ⟨500, [("error", "Error processing video"), ("details", m)]⟩⟩ := by
  unfold POST
  rw [tryBlock_of_failure env file m hf h]
  rfl

/-! ### C1 -/

theorem attemptMessage_eq (i : Nat) :
    attemptMessage i = "Processing video (attempt " ++ toString i ++ "/30)" := by
  have h30 : "/" ++ toString maxAttempts ++ ")" = "/30)" := by decide
  unfold attemptMessage
  rw [← h30]
  simp only [String.append_assoc]

theorem attemptEvents_eq (s n : Nat) :
    (List.range' s n).map (fun i => ("processing", attemptMessage i)) =
      (List.range' s n).map
        (fun i => ("processing", "Processing video (attempt " ++ toString i ++ "/30)")) := by
  apply List.map_congr_left
  intro i _
  rw [attemptMessage_eq]

/-- C1. Over any stream `snap` of successful `getFile` snapshots (snapshot 0 is
the first fetch), the poll loop returns after `a` iterations, where `a` is the
number of leading `PROCESSING` snapshots capped at 30: `a ≤ 30`, snapshots
`0 .. a-1` are `PROCESSING`, and snapshot `a` is not unless `a = 30`. It hands on
snapshot `a`, and its progress events are the `processing` events with the
messages `Processing video (attempt i/30)` for `i = 1 .. a`, in order. If every
snapshot is `PROCESSING` then `a = 30`: there are 30 such events, the first
`Processing video (attempt 1/30)` and the last `Processing video (attempt
30/30)`. The readiness check throws `File processing failed or timeout reached`
exactly when snapshot `a` is not `ACTIVE`, and the invocation then answers 500
with that message as details. -/
theorem poll_loop_ceiling (env : Env) (file : VideoFile) (buffer : List Nat) (name : String)
    (snap : Nat → GeminiFile)
    (hform : env.formData = .ok (some file))
    (hbuf : file.arrayBuffer = .ok buffer)
    (hwrite : env.writeFile (storagePath env.cwd env.now file.name) buffer = .ok ())
    (hup : env.uploadFile (storagePath env.cwd env.now file.name) file.type file.name = .ok name)
    (hget : ∀ k, env.getFile name k = .ok (snap k)) :
    ∃ a, a ≤ 30 ∧
      (∀ k, k < a → (snap k).state = "PROCESSING") ∧
      (a < 30 → (snap a).state ≠ "PROCESSING") ∧
      (pollLoop (env.getFile name) name (snap 0) 0).result = .ok (snap a, a) ∧
      emitted (pollLoop (env.getFile name) name (snap 0) 0).trace =
        (List.range' 1 a).map
          (fun i => ("processing", "Processing video (attempt " ++ toString i ++ "/30)")) ∧
      ((∀ k, (snap k).state = "PROCESSING") →
        a = 30 ∧
        (emitted (pollLoop (env.getFile name) name (snap 0) 0).trace).length = 30 ∧
        (emitted (pollLoop (env.getFile name) name (snap 0) 0).trace).head? =
          some ("processing", "Processing video (attempt 1/30)") ∧
        (emitted (pollLoop (env.getFile name) name (snap 0) 0).trace).getLast? =
          some ("processing", "Processing video (attempt 30/30)")) ∧
      ((pollStage env name).result = .error "File processing failed or timeout reached" ↔
        (snap a).state ≠ "ACTIVE") ∧
      ((snap a).state ≠ "ACTIVE" →
        (POST env).response =
          ⟨500, [("error", "Error processing video"),
            ("details", "File processing failed or timeout reached")]⟩) := by
  obtain ⟨a, -, h2, h3, h4, h5, h6⟩ :=
    pollLoop_snapshots (env.getFile name) name snap hget maxAttempts 0 (by omega)
  have hstage := pollStage_of_loopDone env name (snap 0) (snap a) a (hget 0) h5
  have hevents : emitted (pollLoop (env.getFile name) name (snap 0) 0).trace =
      (List.range' 1 a).map
        (fun i => ("processing", "Processing video (attempt " ++ toString i ++ "/30)")) := by
    rw [← attemptEvents_eq]
    simpa using h6
  refine ⟨a, h2, fun k hk => h3 k (Nat.zero_le k) hk, h4, h5, hevents, ?_, ?_, ?_⟩
  · intro hall
    have ha : a = 30 := by
      by_contra hne
      exact h4 (lt_of_le_of_ne h2 hne) (hall a)
    subst ha
    rw [hevents]
    exact ⟨rfl, by decide, by decide, by decide⟩
  · rw [hstage]
    by_cases hs : (snap a).state = "ACTIVE" <;> simp [hs, processingFailed]
  · intro hs
    have hp : (pollStage env name).result = .error processingFailed := by
      rw [hstage]; simp [hs]
    have h25 : (steps2to5 env file).result = .error processingFailed := by
      rw [steps2to5_of_submitted env file buffer name hbuf hwrite hup]
      simp [hp]
    have h26 : (steps2to6 env file).result = .error processingFailed := by
      rw [steps2to6_of_earlyError env file _ h25]
    rw [POST_of_failure env file _ hform h26]
    rfl

/-- C1 at a remote file that stays `PROCESSING` for ever: 30 attempts, then failure. -/
theorem poll_loop_ceiling_witness :
    (sampleEnv "PROCESSING").formData = .ok (some sampleFile) ∧
    ∃ a, a ≤ 30 ∧
      (∀ k, k < a → "PROCESSING" = "PROCESSING") ∧
      (a < 30 → "PROCESSING" ≠ "PROCESSING") ∧
      (pollLoop ((sampleEnv "PROCESSING").getFile "files/abc") "files/abc"
          ⟨"PROCESSING", "video/mp4", "https://example.test/files/abc"⟩ 0).result =
        .ok (⟨"PROCESSING", "video/mp4", "https://example.test/files/abc"⟩, a) ∧
      emitted (pollLoop ((sampleEnv "PROCESSING").getFile "files/abc") "files/abc"
          ⟨"PROCESSING", "video/mp4", "https://example.test/files/abc"⟩ 0).trace =
        (List.range' 1 a).map
          (fun i => ("processing", "Processing video (attempt " ++ toString i ++ "/30)")) ∧
      ((∀ _k : Nat, "PROCESSING" = "PROCESSING") →
        a = 30 ∧
        (emitted (pollLoop ((sampleEnv "PROCESSING").getFile "files/abc") "files/abc"
          ⟨"PROCESSING", "video/mp4", "https://example.test/files/abc"⟩ 0).trace).length = 30 ∧
        (emitted (pollLoop ((sampleEnv "PROCESSING").getFile "files/abc") "files/abc"
          ⟨"PROCESSING", "video/mp4", "https://example.test/files/abc"⟩ 0).trace).head? =
          some ("processing", "Processing video (attempt 1/30)") ∧
        (emitted (pollLoop ((sampleEnv "PROCESSING").getFile "files/abc") "files/abc"
          ⟨"PROCESSING", "video/mp4", "https://example.test/files/abc"⟩ 0).trace).getLast? =
          some ("processing", "Processing video (attempt 30/30)")) ∧
      ((pollStage (sampleEnv "PROCESSING") "files/abc").result =
          .error "File processing failed or timeout reached" ↔
        "PROCESSING" ≠ "ACTIVE") ∧
      ("PROCESSING" ≠ "ACTIVE" →
        (POST (sampleEnv "PROCESSING")).response =
          ⟨500, [("error", "Error processing video"),
            ("details", "File processing failed or timeout reached")]⟩) :=
  ⟨rfl, poll_loop_ceiling (sampleEnv "PROCESSING") sampleFile [1, 2, 3] "files/abc"
    (fun _ => ⟨"PROCESSING", "video/mp4", "https://example.test/files/abc"⟩)
    rfl rfl rfl rfl (fun _ => rfl)⟩

/-! ### C2 -/

theorem persist_emitted (env : Env) (file : VideoFile) :
    emitted (persist env file).trace = [("uploading", "Uploading video to server")] := by
  cases hb : file.arrayBuffer with
  | error m => rw [persist_of_bufferError env file m hb]; rfl
  | ok buffer =>
    cases hw : env.writeFile (storagePath env.cwd env.now file.name) buffer with
    | error m => rw [persist_of_writeError env file buffer m hb hw]; rfl
    | ok u => rw [persist_of_written env file buffer hb hw]; rfl

theorem pollStage_emitted (env : Env) (name : String) :
    ∃ n, n ≤ maxAttempts ∧
      emitted (pollStage env name).trace =
        ("processing", "Waiting for Gemini processing") ::
          (List.range' 1 n).map (fun i => ("processing", attemptMessage i)) := by
  cases h0 : env.getFile name 0 with
  | error m =>
    refine ⟨0, Nat.zero_le _, ?_⟩
    rw [pollStage_of_fetchError env name m h0]; rfl
  | ok g0 =>
    obtain ⟨n, hn, hem, -⟩ := pollLoop_emitted (env.getFile name) name maxAttempts 0 g0 (by omega)
    refine ⟨n, hn, ?_⟩
    cases hl : (pollLoop (env.getFile name) name g0 0).result with
    | error m =>
      rw [pollStage_of_loopError env name m g0 h0 hl, emitted_append, hem]; rfl
    | ok ga =>
      obtain ⟨g, a⟩ := ga
      rw [pollStage_of_loopDone env name g0 g a h0 hl, emitted_append, hem]; rfl

theorem cleanup_emitted (env : Env) (filePath : String) :
    emitted (cleanup env filePath).trace = [] := by
  unfold cleanup
  cases env.unlink filePath <;> rfl

theorem steps2to5_trace_of_ok (env : Env) (file : VideoFile) (filePath : String)
    (g : GeminiFile) (h : (steps2to5 env file).result = .ok (filePath, g)) :
    ∃ p name, (steps2to5 env file).trace =
      (persist env file).trace ++ ((submit env file p).trace ++ (pollStage env name).trace) := by
  simp only [steps2to5, Run.bind_eq] at h ⊢
  obtain ⟨p, hp, h1⟩ := Run.bind_result_ok h
  obtain ⟨name, hname, h2⟩ := Run.bind_result_ok h1
  obtain ⟨g1, hg1, -⟩ := Run.bind_result_ok h2
  refine ⟨p, name, ?_⟩
  rw [Run.bind_of_ok hp]
  simp only [Run.bind_of_ok hname, Run.bind_of_ok hg1, Run.pure_eq, List.append_nil]

theorem steps2to6_trace_of_ok (env : Env) (file : VideoFile) (filePath : String)
    (result : ChatResult) (h : (steps2to6 env file).result = .ok (filePath, result)) :
    ∃ g, (steps2to5 env file).result = .ok (filePath, g) ∧
      (steps2to6 env file).trace = (steps2to5 env file).trace ++ (analyze env g).trace := by
  simp only [steps2to6, Run.bind_eq] at h ⊢
  obtain ⟨⟨p, g⟩, h25, h6⟩ := Run.bind_result_ok h
  obtain ⟨r, hr, h7⟩ := Run.bind_result_ok h6
  have hp : p = filePath := by
    simp only [Run.pure_eq, Except.ok.injEq, Prod.mk.injEq] at h7
    exact h7.1
  subst hp
  refine ⟨g, h25, ?_⟩
  rw [Run.bind_of_ok h25]
  simp only [Run.bind_of_ok hr, Run.pure_eq, List.append_nil]

theorem steps2to6_emitted_of_ok (env : Env) (file : VideoFile) (filePath : String)
    (result : ChatResult) (h : (steps2to6 env file).result = .ok (filePath, result)) :
    ∃ n, n ≤ maxAttempts ∧
      emitted (steps2to6 env file).trace =
        [("uploading", "Uploading video to server"), ("processing", "Uploading to Gemini"),
          ("processing", "Waiting for Gemini processing")] ++
        (List.range' 1 n).map (fun i => ("processing", attemptMessage i)) ++
        [("analyzing", "Analyzing video content")] := by
  obtain ⟨g, h25, htr⟩ := steps2to6_trace_of_ok env file filePath result h
  obtain ⟨p, name, htr5⟩ := steps2to5_trace_of_ok env file filePath g h25
  obtain ⟨n, hn, hem⟩ := pollStage_emitted env name
  refine ⟨n, hn, ?_⟩
  rw [htr, htr5]
  simp only [emitted_append, persist_emitted, hem, submit_eq, analyze_eq]
  simp [emitted]

/-- C2, amended. A successful invocation (response status 200) publishes
exactly: `started`, `uploading`, two `processing` events that carry no counter
(`Uploading to Gemini`, `Waiting for Gemini processing`), then `n` further
`processing` events for some `n ≤ 30`, the `i`-th of them carrying the attempt
counter `i` (`Processing video (attempt i/30)`, `i = 1 .. n`), then `analyzing`
and `completed`. -/
theorem success_events (env : Env) (h : (POST env).response.status = 200) :
    ∃ n, n ≤ 30 ∧
      emitted (POST env).trace =
        [("started", "Starting video analysis"), ("uploading", "Uploading video to server"),
          ("processing", "Uploading to Gemini"),
          ("processing", "Waiting for Gemini processing")] ++
        (List.range' 1 n).map
          (fun i => ("processing", "Processing video (attempt " ++ toString i ++ "/30)")) ++
        [("analyzing", "Analyzing video content"), ("completed", "Analysis completed")] := by
  cases hf : env.formData with
  | error m =>
    simp [POST, tryBlock_of_formError env m hf] at h
  | ok file =>
    cases file with
    | none => simp [POST, tryBlock_of_noFile env hf] at h
    | some file =>
      cases h26 : (steps2to6 env file).result with
      | error m => simp [POST_of_failure env file m hf h26] at h
      | ok pr =>
        obtain ⟨filePath, result⟩ := pr
        have htry := tryBlock_of_analysis env file filePath result hf h26
        cases ht : result.text with
        | error m =>
          rw [ht] at htry
          simp [POST, htry] at h
        | ok text =>
          rw [ht] at htry
          obtain ⟨n, hn, hem⟩ := steps2to6_emitted_of_ok env file filePath result h26
          rw [attemptEvents_eq] at hem
          refine ⟨n, hn, ?_⟩
          have hpost : (POST env).trace =
              .emitProgress "analysisStatus" "started" "Starting video analysis" ::
                ((steps2to6 env file).trace ++ ((cleanup env filePath).trace ++
                  [.emitProgress "analysisStatus" "completed" "Analysis completed"])) := by
            simp only [POST, htry]
          rw [hpost]
          simp only [emitted, emitted_append, hem, cleanup_emitted]
          simp

theorem pollLoop_pollingEnv :
    pollLoop (pollingEnv.getFile "files/abc") "files/abc"
        ⟨"PROCESSING", "video/mp4", "https://example.test/files/abc"⟩ 0 =
      ⟨[.emitProgress "analysisStatus" "processing" (attemptMessage 1), .setTimeout 10000,
        .getFile "files/abc",
        .emitProgress "analysisStatus" "processing" (attemptMessage 2), .setTimeout 10000,
        .getFile "files/abc"],
       .ok (⟨"ACTIVE", "video/mp4", "https://example.test/files/abc"⟩, 2)⟩ := by
  rw [pollLoop_ok _ _ _ ⟨"PROCESSING", "video/mp4", "https://example.test/files/abc"⟩ 0
      ⟨rfl, by decide⟩ rfl,
    pollLoop_ok _ _ _ ⟨"ACTIVE", "video/mp4", "https://example.test/files/abc"⟩ 1
      ⟨rfl, by decide⟩ rfl,
    pollLoop_done _ _ _ _ (by decide)]
  rfl

theorem POST_pollingEnv_status : (POST pollingEnv).response.status = 200 := by
  have hl := pollLoop_pollingEnv
  simp only [pollingEnv, sampleEnv] at hl
  simp [POST, tryBlock, steps2to6, steps2to5, persist, submit, pollStage, analyze, cleanup,
    sampleEnv, sampleFile, Run.bind_eq, Run.pure_eq, emitProgress, perform, call, await, throwNew,
    Run.bind_mk_ok, Run.bind, pollingEnv, hl]

theorem POST_pollingEnv_emitted :
    emitted (POST pollingEnv).trace =
      [("started", "Starting video analysis"), ("uploading", "Uploading video to server"),
        ("processing", "Uploading to Gemini"), ("processing", "Waiting for Gemini processing"),
        ("processing", "Processing video (attempt 1/30)"),
        ("processing", "Processing video (attempt 2/30)"),
        ("analyzing", "Analyzing video content"), ("completed", "Analysis completed")] := by
  have hl := pollLoop_pollingEnv
  have h1 : attemptMessage 1 = "Processing video (attempt 1/30)" := by decide
  have h2 : attemptMessage 2 = "Processing video (attempt 2/30)" := by decide
  simp only [pollingEnv, sampleEnv] at hl
  simp [POST, tryBlock, steps2to6, steps2to5, persist, submit, pollStage, analyze, cleanup,
    sampleEnv, sampleFile, Run.bind_eq, Run.pure_eq, emitProgress, perform, call, await, throwNew,
    Run.bind_mk_ok, Run.bind, pollingEnv, hl, emitted, h1, h2]

/-- C2, amended, at an upload whose remote file is `PROCESSING` twice and then
`ACTIVE`: the events are the four fixed ones, `Processing video (attempt 1/30)`,
`Processing video (attempt 2/30)`, `analyzing` and `completed`. -/
theorem success_events_witness :
    (POST pollingEnv).response.status = 200 ∧
    (∃ n, n ≤ 30 ∧
      emitted (POST pollingEnv).trace =
        [("started", "Starting video analysis"), ("uploading", "Uploading video to server"),
          ("processing", "Uploading to Gemini"),
          ("processing", "Waiting for Gemini processing")] ++
        (List.range' 1 n).map
          (fun i => ("processing", "Processing video (attempt " ++ toString i ++ "/30)")) ++
        [("analyzing", "Analyzing video content"), ("completed", "Analysis completed")]) ∧
    emitted (POST pollingEnv).trace =
      [("started", "Starting video analysis"), ("uploading", "Uploading video to server"),
        ("processing", "Uploading to Gemini"), ("processing", "Waiting for Gemini processing"),
        ("processing", "Processing video (attempt 1/30)"),
        ("processing", "Processing video (attempt 2/30)"),
        ("analyzing", "Analyzing video content"), ("completed", "Analysis completed")] :=
  ⟨POST_pollingEnv_status, success_events pollingEnv POST_pollingEnv_status,
    POST_pollingEnv_emitted⟩

theorem POST_sampleEnv_active :
    POST (sampleEnv "ACTIVE") =
      ⟨[.emitProgress "analysisStatus" "started" "Starting video analysis",
        .emitProgress "analysisStatus" "uploading" "Uploading video to server",
        .writeFile "/app/uploads/17-clip.mp4" [1, 2, 3],
        .emitProgress "analysisStatus" "processing" "Uploading to Gemini",
        .uploadFile "/app/uploads/17-clip.mp4" "video/mp4" "clip.mp4",
        .emitProgress "analysisStatus" "processing" "Waiting for Gemini processing",
        .getFile "files/abc",
        .emitProgress "analysisStatus" "analyzing" "Analyzing video content",
        .sendMessage "video/mp4" "https://example.test/files/abc" analysisPrompt,
        .unlink "/app/uploads/17-clip.mp4",
        .emitProgress "analysisStatus" "completed" "Analysis completed"],
       ⟨200, [("analysis", "analysis text"), ("status", "success")]⟩⟩ := by
  have hp : storagePath "/app" 17 "clip.mp4" = "/app/uploads/17-clip.mp4" := by decide
  simp [POST, tryBlock, steps2to6, steps2to5, persist, submit, pollStage, analyze, cleanup,
    sampleEnv, sampleFile, Run.bind_eq, Run.pure_eq, emitProgress, perform, call, await, throwNew,
    Run.bind_mk_ok, pollLoop_done, Run.bind, hp]

/-- C2 as stated fails: the upload whose remote file is `ACTIVE` at the first
fetch succeeds, and its `processing` events are `Uploading to Gemini` and
`Waiting for Gemini processing`, which carry no attempt counter: they are not
the messages `Processing video (attempt i/30)`, `i = 1 .. n`, for any `n`. -/
theorem success_processing_without_counter :
    (POST (sampleEnv "ACTIVE")).response.status = 200 ∧
    processingMessages (POST (sampleEnv "ACTIVE")).trace =
      ["Uploading to Gemini", "Waiting for Gemini processing"] ∧
    ¬ ∃ n, processingMessages (POST (sampleEnv "ACTIVE")).trace =
      (List.range' 1 n).map
        (fun i => "Processing video (attempt " ++ toString i ++ "/30)") := by
  have hpm : processingMessages (POST (sampleEnv "ACTIVE")).trace =
      ["Uploading to Gemini", "Waiting for Gemini processing"] := by
    rw [POST_sampleEnv_active]; decide
  refine ⟨by rw [POST_sampleEnv_active], hpm, ?_⟩
  rintro ⟨n, hn⟩
  rw [hpm] at hn
  have hlen := congrArg List.length hn
  simp at hlen
  subst hlen
  revert hn
  decide
/-! ### C4 -/

theorem POST_uploadFailEnv :
    POST uploadFailEnv =
      ⟨[.emitProgress "analysisStatus" "started" "Starting video analysis",
        .emitProgress "analysisStatus" "uploading" "Uploading video to server",
        .writeFile "/app/uploads/17-clip.mp4" [1, 2, 3],
        .emitProgress "analysisStatus" "processing" "Uploading to Gemini",
        .uploadFile "/app/uploads/17-clip.mp4" "video/mp4" "clip.mp4",
        .emitProgress "analysisStatus" "error" "Error: upload rejected",
        .consoleError "Error processing video:" "upload rejected"],
       ⟨500, [("error", "Error processing video"), ("details", "upload rejected")]⟩⟩ := by
  have hp : storagePath "/app" 17 "clip.mp4" = "/app/uploads/17-clip.mp4" := by decide
  simp [POST, tryBlock, steps2to6, steps2to5, persist, submit, uploadFailEnv,
    sampleEnv, sampleFile, Run.bind_eq, Run.pure_eq, emitProgress, perform, call, await,
    Run.bind_mk_ok, Run.bind, hp]

/-- C4 fails on the code. When the upload to the file manager is rejected, the
invocation has written `/app/uploads/17-clip.mp4`, answers 500, and its trace
holds no call of `unlink`: the file stays. The successful sibling run does call
`unlink` on that path. -/
theorem temp_file_not_deleted_on_failure :
    written (POST uploadFailEnv).trace = ["/app/uploads/17-clip.mp4"] ∧
    (POST uploadFailEnv).response.status = 500 ∧
    unlinked (POST uploadFailEnv).trace = [] ∧
    unlinked (POST (sampleEnv "ACTIVE")).trace = ["/app/uploads/17-clip.mp4"] := by
  rw [POST_uploadFailEnv, POST_sampleEnv_active]
  decide
end AnalyzeVideo

namespace LiveUpdate

/-! ### C3 -/

theorem emitProgress_length_le_one (s : State) (event status message : String) :
    (emitProgress s event status message).length ≤ 1 := by
  unfold emitProgress socketEmit
  cases s.socketIo with
  | none => simp
  | some socket => dsimp only; split <;> simp

/-- C3 fails on the code. After clients 1 and 2 have connected, both are
connected, and a progress event published by `emitProgress` is delivered to
client 2 only; after client 2 has disconnected, client 1 is still connected and
the event is delivered to nobody. -/
theorem publish_reaches_last_socket_only :
    (run [.connection 1, .connection 2]).connected = [1, 2] ∧
    receivers (emitProgress (run [.connection 1, .connection 2])
      "analysisStatus" "started" "Starting video analysis") = [2] ∧
    (run [.connection 1, .connection 2, .disconnect 2]).connected = [1] ∧
    receivers (emitProgress (run [.connection 1, .connection 2, .disconnect 2])
      "analysisStatus" "started" "Starting video analysis") = [] := by
  decide

end LiveUpdate

namespace AnalyzeVideo

/-! ### C5 -/

theorem statuses_append (s t : List Effect) : statuses (s ++ t) = statuses s ++ statuses t := by
  simp [statuses, emitted_append]

theorem unlinked_append (s t : List Effect) : unlinked (s ++ t) = unlinked s ++ unlinked t := by
  induction s with
  | nil => rfl
  | cons e s ih => cases e <;> simp [unlinked, ih]

/-- C5. Let the request carry a file and let steps 2 to 6 throw an error with
message `m` (payload read or write, remote upload, a fetch of the poll, the
readiness check, or the chat call). Then the response is 500 with body
`{error: 'Error processing video', details: m}` and no `analysis` field; the last
progress event is `error` with message `Error: m`; no `completed` event is
published and `unlink` is not called; and when the error was thrown in steps 2
to 5, no `analyzing` event is published either. -/
theorem failure_short_circuits (env : Env) (file : VideoFile) (m : String)
    (hf : env.formData = .ok (some file)) (hfail : (steps2to6 env file).result = .error m) :
    (POST env).response =
        ⟨500, [("error", "Error processing video"), ("details", m)]⟩ ∧
      (POST env).response.body.lookup "analysis" = none ∧
      (emitted (POST env).trace).getLast? = some ("error", "Error: " ++ m) ∧
      "completed" ∉ statuses (POST env).trace ∧
      unlinked (POST env).trace = [] ∧
      ((steps2to5 env file).result = .error m → "analyzing" ∉ statuses (POST env).trace) := by
  have hpost := POST_of_failure env file m hf hfail
  have htrace : (POST env).trace =
      [.emitProgress "analysisStatus" "started" "Starting video analysis"] ++
        ((steps2to6 env file).trace ++
          [.emitProgress "analysisStatus" "error" ("Error: " ++ m),
           .consoleError "Error processing video:" m]) := by
    rw [hpost]; rfl
  have hst : statuses (POST env).trace =
      ["started"] ++ (statuses (steps2to6 env file).trace ++ ["error"]) := by
    rw [htrace, statuses_append, statuses_append]; rfl
  refine ⟨by rw [hpost], by rw [hpost]; rfl, ?_, ?_, ?_, ?_⟩
  · rw [htrace, emitted_append, emitted_append]
    have : emitted [Effect.emitProgress "analysisStatus" "error" ("Error: " ++ m),
        Effect.consoleError "Error processing video:" m] = [("error", "Error: " ++ m)] := rfl
    rw [this, ← List.append_assoc, List.getLast?_append]
    rfl
  · rw [hst]
    intro hmem
    simp only [List.mem_append, List.mem_singleton] at hmem
    rcases hmem with h | h | h
    · exact absurd h (by decide)
    · rcases statuses_of_beforeCleanup _ (steps2to6_effects env file) _ h with h' | h' | h' <;>
        exact absurd h' (by decide)
    · exact absurd h (by decide)
  · rw [htrace, unlinked_append, unlinked_append,
      unlinked_of_beforeCleanup _ (steps2to6_effects env file)]
    rfl
  · intro h25 hmem
    rw [hst, steps2to6_of_earlyError env file m h25] at hmem
    simp only [List.mem_append, List.mem_singleton] at hmem
    rcases hmem with h | h | h
    · exact absurd h (by decide)
    · rcases statuses_of_beforeAnalysis _ (steps2to5_effects env file) _ h with h' | h' <;>
        exact absurd h' (by decide)
    · exact absurd h (by decide)

theorem steps2to6_analysisFailEnv :
    (steps2to6 analysisFailEnv sampleFile).result = .error "quota exceeded" := by
  simp [steps2to6, steps2to5, persist, submit, pollStage, analyze, analysisFailEnv,
    sampleEnv, sampleFile, Run.bind_eq, Run.pure_eq, emitProgress, perform, call, await, throwNew,
    Run.bind_mk_ok, pollLoop_done, Run.bind]

/-- C5 at an upload whose chat call fails with `quota exceeded`. -/
theorem failure_short_circuits_witness :
    analysisFailEnv.formData = .ok (some sampleFile) ∧
    (steps2to6 analysisFailEnv sampleFile).result = .error "quota exceeded" ∧
    ((POST analysisFailEnv).response =
        ⟨500, [("error", "Error processing video"), ("details", "quota exceeded")]⟩ ∧
      (POST analysisFailEnv).response.body.lookup "analysis" = none ∧
      (emitted (POST analysisFailEnv).trace).getLast? =
        some ("error", "Error: " ++ "quota exceeded") ∧
      "completed" ∉ statuses (POST analysisFailEnv).trace ∧
      unlinked (POST analysisFailEnv).trace = [] ∧
      ((steps2to5 analysisFailEnv sampleFile).result = .error "quota exceeded" →
        "analyzing" ∉ statuses (POST analysisFailEnv).trace)) :=
  ⟨rfl, steps2to6_analysisFailEnv,
    failure_short_circuits analysisFailEnv sampleFile "quota exceeded" rfl
      steps2to6_analysisFailEnv⟩

/-! ### C6 -/

/-- C6. When the form data has no (truthy) `video` field, the invocation
publishes `started` and then `error` with message `No video file provided`, does
nothing else (no file is written, no remote call is made), and answers 400 with
body `{error: 'No video file provided'}`. -/
theorem missing_video_rejected (env : Env) (hf : env.formData = .ok none) :
    POST env =
        ⟨[.emitProgress "analysisStatus" "started" "Starting video analysis",
          .emitProgress "analysisStatus" "error" "No video file provided"],
          ⟨400, [("error", "No video file provided")]⟩⟩ ∧
      statuses (POST env).trace = ["started", "error"] ∧
      written (POST env).trace = [] ∧
      ∀ e ∈ (POST env).trace, e.isRemote = false := by
  have hpost : POST env =
      ⟨[.emitProgress "analysisStatus" "started" "Starting video analysis",
        .emitProgress "analysisStatus" "error" "No video file provided"],
        ⟨400, [("error", "No video file provided")]⟩⟩ := by
    unfold POST
    rw [tryBlock_of_noFile env hf]
  rw [hpost]
  refine ⟨rfl, rfl, rfl, ?_⟩
  intro e he
  simp only [List.mem_cons, List.mem_singleton, List.not_mem_nil, or_false] at he
  rcases he with h | h <;> subst h <;> rfl

/-- C6 at a request without a `video` field. -/
theorem missing_video_rejected_witness :
    noVideoEnv.formData = .ok none ∧
    (POST noVideoEnv =
        ⟨[.emitProgress "analysisStatus" "started" "Starting video analysis",
          .emitProgress "analysisStatus" "error" "No video file provided"],
          ⟨400, [("error", "No video file provided")]⟩⟩ ∧
      statuses (POST noVideoEnv).trace = ["started", "error"] ∧
      written (POST noVideoEnv).trace = [] ∧
      ∀ e ∈ (POST noVideoEnv).trace, e.isRemote = false) :=
  ⟨rfl, missing_video_rejected noVideoEnv rfl⟩

end AnalyzeVideo

namespace AnalyzeVideo

/-! ### C10 -/

theorem POST_of_analysis (env : Env) (file : VideoFile) (filePath : String)
    (result : ChatResult) (text : String) (hf : env.formData = .ok (some file))
    (h26 : (steps2to6 env file).result = .ok (filePath, result)) (ht : result.text = .ok text) :
    POST env =
      ⟨[.emitProgress "analysisStatus" "started" "Starting video analysis"] ++
          ((steps2to6 env file).trace ++ ((cleanup env filePath).trace ++
            [.emitProgress "analysisStatus" "completed" "Analysis completed"])),
        ⟨200, [("analysis", text), ("status", "success")]⟩⟩ := by
  have htry := tryBlock_of_analysis env file filePath result hf h26
  rw [ht] at htry
  simp only [POST, htry]
  rfl

theorem cleanup_unlinked (env : Env) (filePath : String) :
    unlinked (cleanup env filePath).trace = [filePath] := by
  unfold cleanup
  cases env.unlink filePath <;> rfl

/-- C10. Let steps 1 to 6 succeed and the model's text be `text`. Whatever
`unlink` does, the response is 200 with `analysis = text` and `status =
'success'`, and the response and the published events are those of the same
run with a deletion that succeeds. The deletion is attempted exactly once, on
the temporary file, and a failure of it is logged. -/
theorem cleanup_failure_swallowed (env : Env) (file : VideoFile) (filePath : String)
    (result : ChatResult) (text : String) (hf : env.formData = .ok (some file))
    (h26 : (steps2to6 env file).result = .ok (filePath, result)) (ht : result.text = .ok text) :
    (POST env).response = ⟨200, [("analysis", text), ("status", "success")]⟩ ∧
      (POST env).response = (POST { env with unlink := fun _ => .ok () }).response ∧
      emitted (POST env).trace = emitted (POST { env with unlink := fun _ => .ok () }).trace ∧
      unlinked (POST env).trace = [filePath] ∧
      ∀ m, env.unlink filePath = .error m →
        Effect.consoleError "Error cleaning up file:" m ∈ (POST env).trace := by
  have hpost := POST_of_analysis env file filePath result text hf h26 ht
  have hpost' := POST_of_analysis { env with unlink := fun _ => .ok () } file filePath result
    text hf h26 ht
  have hsame : steps2to6 { env with unlink := fun _ => .ok () } file = steps2to6 env file := rfl
  rw [hsame] at hpost'
  refine ⟨by rw [hpost], by rw [hpost, hpost'], ?_, ?_, ?_⟩
  · rw [hpost, hpost']
    simp only [emitted_append, cleanup_emitted]
  · rw [hpost]
    simp only [unlinked_append, cleanup_unlinked,
      unlinked_of_beforeCleanup _ (steps2to6_effects env file)]
    rfl
  · intro m hm
    rw [hpost]
    have hc : (cleanup env filePath).trace =
        [.unlink filePath, .consoleError "Error cleaning up file:" m] := by
      unfold cleanup; rw [hm]
    rw [hc]
    simp

theorem steps2to6_unlinkFailEnv :
    (steps2to6 unlinkFailEnv sampleFile).result =
      .ok ("/app/uploads/17-clip.mp4", ⟨.ok "analysis text"⟩) := by
  have hp : storagePath "/app" 17 "clip.mp4" = "/app/uploads/17-clip.mp4" := by decide
  simp [steps2to6, steps2to5, persist, submit, pollStage, analyze, unlinkFailEnv,
    sampleEnv, sampleFile, Run.bind_eq, Run.pure_eq, emitProgress, perform, call, await, throwNew,
    Run.bind_mk_ok, pollLoop_done, Run.bind, hp]

/-- C10 at an upload whose temporary file cannot be deleted. -/
theorem cleanup_failure_swallowed_witness :
    unlinkFailEnv.formData = .ok (some sampleFile) ∧
    (steps2to6 unlinkFailEnv sampleFile).result =
      .ok ("/app/uploads/17-clip.mp4", ⟨.ok "analysis text"⟩) ∧
    ((POST unlinkFailEnv).response =
        ⟨200, [("analysis", "analysis text"), ("status", "success")]⟩ ∧
      (POST unlinkFailEnv).response =
        (POST { unlinkFailEnv with unlink := fun _ => .ok () }).response ∧
      emitted (POST unlinkFailEnv).trace =
        emitted (POST { unlinkFailEnv with unlink := fun _ => .ok () }).trace ∧
      unlinked (POST unlinkFailEnv).trace = ["/app/uploads/17-clip.mp4"] ∧
      ∀ m, unlinkFailEnv.unlink "/app/uploads/17-clip.mp4" = .error m →
        Effect.consoleError "Error cleaning up file:" m ∈ (POST unlinkFailEnv).trace) :=
  ⟨rfl, steps2to6_unlinkFailEnv,
    cleanup_failure_swallowed unlinkFailEnv sampleFile "/app/uploads/17-clip.mp4"
      ⟨.ok "analysis text"⟩ "analysis text" rfl steps2to6_unlinkFailEnv rfl⟩

end AnalyzeVideo

namespace SecurityAnalysis

/-! ### C8 -/

theorem includesChars_iff (s search : List Char) :
    includesChars s search = true ↔ search <:+: s := by
  induction s with
  | nil => simp [includesChars, List.infix_nil]
  | cons c cs ih =>
    simp only [includesChars, Bool.or_eq_true, ih, List.infix_cons_iff, List.isPrefixOf_iff_prefix]

theorem includes_iff (s search : String) : includes s search = true ↔ search.data <:+: s.data :=
  includesChars_iff s.data search.data

theorem foldl_push (p : String → Bool) (label : String → String) :
    ∀ (ks : List String) (flags : List String),
      ks.foldl (fun flags keyword => if p keyword then flags ++ [label keyword] else flags) flags =
        flags ++ (ks.filter p).map label := by
  intro ks
  induction ks with
  | nil => intro flags; simp
  | cons k ks ih =>
    intro flags
    rw [List.foldl_cons, ih]
    by_cases hk : p k <;> simp [hk, List.filter_cons]

theorem matches_eq_filter (rt : Builtins) (text : String) :
    specMatches rt (some text) =
      suspiciousKeywords.filter
        (fun kw => includes (rt.toLowerCase text) (rt.toLowerCase kw)) := by
  unfold specMatches
  apply List.filter_congr
  intro kw _
  rw [Bool.eq_iff_iff, includes_iff]
  simp

theorem toText_string (s : String) : (JsValue.string s).toText = .ok s := by
  simp [JsValue.toText]

theorem foldlM_push (p : String → Bool) (label : String → String) (v : JsValue) :
    ∀ (ks : List String) (state : List String × List JsValue),
      ks.foldlM
          (fun (state : List String × List JsValue) keyword =>
            if p keyword then
              (pure (state.1 ++ [label keyword], state.2 ++ [v]) :
                Except String (List String × List JsValue))
            else pure state)
          state =
        .ok (state.1 ++ (ks.filter p).map label, state.2 ++ (ks.filter p).map (fun _ => v)) := by
  intro ks
  induction ks with
  | nil => intro state; simp [pure, Except.pure]
  | cons k ks ih =>
    intro state
    rw [List.foldlM_cons]
    by_cases hk : p k
    · simp only [hk, if_true, pure, Except.pure, bind, Except.bind]
      have := ih (state.1 ++ [label k], state.2 ++ [v])
      simp only [pure, Except.pure] at this
      rw [this]
      simp [List.filter_cons, hk]
    · simp only [hk, pure, Except.pure, bind, Except.bind]
      have := ih state
      simp only [pure, Except.pure] at this
      simp only [Bool.false_eq_true, if_false]
      rw [this]
      simp [List.filter_cons, hk]

theorem specMatches_empty (rt : Builtins) (hempty : rt.toLowerCase "" = "")
    (hkw : ∀ kw ∈ suspiciousKeywords, rt.toLowerCase kw ≠ "") :
    specMatches rt (some "") = [] := by
  unfold specMatches
  rw [List.filter_eq_nil_iff]
  intro kw hmem
  simp only [hempty, decide_eq_true_eq]
  intro hinf
  have hnil : (rt.toLowerCase kw).data = [] := List.infix_nil.mp hinf
  exact hkw kw hmem (String.ext hnil)

theorem scanEvent_toJs (rt : Builtins) (hempty : rt.toLowerCase "" = "")
    (hkw : ∀ kw ∈ suspiciousKeywords, rt.toLowerCase kw ≠ "") (e : KeyEvent)
    (state : List String × List JsValue) :
    scanEvent rt e.toJs state =
      .ok (state.1 ++ (specMatches rt e.event).map
          (fun keyword => "Suspicious activity detected at " ++ e.timestamp ++ ": " ++ keyword),
        state.2 ++ (specMatches rt e.event).map (fun _ => JsValue.string e.timestamp)) := by
  obtain ⟨timestamp, event⟩ := e
  cases event with
  | none =>
    simp [scanEvent, KeyEvent.toJs, optionalFields, JsValue.get, List.lookup, JsValue.truthy,
      specMatches, bind, Except.bind, pure, Except.pure]
  | some text =>
    by_cases ht : text = ""
    · subst ht
      rw [specMatches_empty rt hempty hkw]
      simp [scanEvent, KeyEvent.toJs, optionalFields, JsValue.get, List.lookup, JsValue.truthy,
        bind, Except.bind, pure, Except.pure]
    · have hfun : (fun (state : List String × List JsValue) keyword =>
            if includes (rt.toLowerCase text) (rt.toLowerCase keyword) then do
              let timestamp' ← (KeyEvent.toJs ⟨timestamp, some text⟩).get "timestamp"
              let shown ← timestamp'.toText
              (pure (state.1 ++ ["Suspicious activity detected at " ++ shown ++ ": " ++ keyword],
                state.2 ++ [timestamp']) : Except String (List String × List JsValue))
            else pure state) =
          (fun (state : List String × List JsValue) keyword =>
            if (fun kw => includes (rt.toLowerCase text) (rt.toLowerCase kw)) keyword then
              (pure (state.1 ++ [(fun kw => "Suspicious activity detected at " ++ timestamp ++
                ": " ++ kw) keyword], state.2 ++ [JsValue.string timestamp]) :
                Except String (List String × List JsValue))
            else pure state) := by
        funext state keyword
        simp [KeyEvent.toJs, optionalFields, JsValue.get, List.lookup, toText_string,
          bind, Except.bind, pure, Except.pure]
      have hmatch : specMatches rt (some text) =
          suspiciousKeywords.filter
            (fun kw => includes (rt.toLowerCase text) (rt.toLowerCase kw)) := by
        unfold specMatches
        apply List.filter_congr
        intro kw _
        rw [Bool.eq_iff_iff, includes_iff]
        simp
      have hget : (KeyEvent.toJs ⟨timestamp, some text⟩).get "event" = .ok (.string text) := by
        simp [KeyEvent.toJs, optionalFields, JsValue.get, List.lookup]
      have htruthy : (JsValue.string text).truthy = true := by
        simp [JsValue.truthy, ht]
      unfold scanEvent
      rw [hget]
      simp only [bind, Except.bind, htruthy, if_true, JsValue.toLowerCase]
      simp only [bind, Except.bind] at hfun
      rw [hfun, hmatch]
      exact foldlM_push _ _ _ _ _

theorem scanEvents_toJs (rt : Builtins) (hempty : rt.toLowerCase "" = "")
    (hkw : ∀ kw ∈ suspiciousKeywords, rt.toLowerCase kw ≠ "") :
    ∀ (es : List KeyEvent) (state : List String × List JsValue),
      (es.map KeyEvent.toJs).foldlM (fun state event => scanEvent rt event state) state =
        .ok (state.1 ++ es.flatMap (fun e => (specMatches rt e.event).map
            (fun keyword => "Suspicious activity detected at " ++ e.timestamp ++ ": " ++ keyword)),
          state.2 ++ es.flatMap (fun e => (specMatches rt e.event).map
            (fun _ => JsValue.string e.timestamp))) := by
  intro es
  induction es with
  | nil => intro state; simp [pure, Except.pure]
  | cons e es ih =>
    intro state
    rw [List.map_cons, List.foldlM_cons, scanEvent_toJs rt hempty hkw]
    simp only [bind, Except.bind]
    rw [ih]
    simp [List.flatMap_cons, List.append_assoc]

theorem scanField_toJs (rt : Builtins) (hempty : rt.toLowerCase "" = "")
    (hkw : ∀ kw ∈ suspiciousKeywords, rt.toLowerCase kw ≠ "") (field : Option String)
    (label : String → String) (flags : List String) :
    scanField rt ((field.map JsValue.string).getD .undefined) label flags =
      .ok (flags ++ (specMatches rt field).map label) := by
  unfold scanField
  cases field with
  | none => simp [JsValue.truthy, specMatches, pure, Except.pure]
  | some text =>
    by_cases ht : text = ""
    · subst ht
      rw [specMatches_empty rt hempty hkw]
      simp [JsValue.truthy, pure, Except.pure]
    · have htruthy : (JsValue.string text).truthy = true := by simp [JsValue.truthy, ht]
      simp only [Option.map_some', Option.getD_some, htruthy, if_true, JsValue.toLowerCase, bind,
        Except.bind, foldl_push, matches_eq_filter, pure, Except.pure]

theorem scanEvents_of_list (rt : Builtins) (hempty : rt.toLowerCase "" = "")
    (hkw : ∀ kw ∈ suspiciousKeywords, rt.toLowerCase kw ≠ "") (events : Option (List KeyEvent))
    (state : List String × List JsValue) :
    scanEvents rt ((events.map (fun es => JsValue.array (es.map KeyEvent.toJs))).getD .undefined)
        state =
      .ok (state.1 ++ (events.getD []).flatMap (fun e => (specMatches rt e.event).map
          (fun keyword => "Suspicious activity detected at " ++ e.timestamp ++ ": " ++ keyword)),
        state.2 ++ (events.getD []).flatMap (fun e => (specMatches rt e.event).map
          (fun _ => JsValue.string e.timestamp))) := by
  cases events with
  | none => simp [scanEvents, pure, Except.pure]
  | some es =>
    simp only [Option.map_some', Option.getD_some, scanEvents]
    exact scanEvents_toJs rt hempty hkw es state

theorem Except.ok_bind {ε α β : Type} (a : α) (f : α → Except ε β) :
    (Except.ok a >>= f) = f a := rfl

theorem get_main_subject (p : Payload) :
    p.toJs.get "main_subject" = .ok ((p.main_subject.map JsValue.string).getD .undefined) := by
  obtain ⟨ms, ke, os⟩ := p
  cases ms <;> cases ke <;> cases os <;>
    simp [Payload.toJs, optionalFields, JsValue.get, List.lookup]

theorem get_key_events (p : Payload) :
    p.toJs.get "key_events" =
      .ok ((p.key_events.map (fun es => JsValue.array (es.map KeyEvent.toJs))).getD
        .undefined) := by
  obtain ⟨ms, ke, os⟩ := p
  cases ms <;> cases ke <;> cases os <;>
    simp [Payload.toJs, optionalFields, JsValue.get, List.lookup]

theorem get_overall_summary (p : Payload) :
    p.toJs.get "overall_summary" =
      .ok ((p.overall_summary.map JsValue.string).getD .undefined) := by
  obtain ⟨ms, ke, os⟩ := p
  cases ms <;> cases ke <;> cases os <;>
    simp [Payload.toJs, optionalFields, JsValue.get, List.lookup]

theorem result_eq_spec (flags : List String) (timestamps : List JsValue) :
    ({ hasSuspiciousActivity := decide (flags.length > 0)
       flags := flags
       timestamps := timestamps
       severity :=
        if flags.length > 2 then "high" else if flags.length > 0 then "medium" else "low" } :
      SecurityResult) =
    { hasSuspiciousActivity := decide (flags ≠ [])
      flags := flags
      timestamps := timestamps
      severity := specSeverity flags.length } := by
  have h1 : decide (flags.length > 0) = decide (flags ≠ []) := by
    cases flags <;> simp
  have h2 : (if flags.length > 2 then "high" else if flags.length > 0 then "medium" else "low") =
      specSeverity flags.length := by
    unfold specSeverity
    by_cases h : flags.length > 2
    · simp [h]
    · by_cases h' : flags.length > 0
      · rw [if_neg h, if_pos h', if_neg h, if_pos (by omega)]
      · rw [if_neg h, if_neg h', if_neg h, if_neg (by omega)]
  rw [h1, h2]

theorem scanData_toJs (rt : Builtins) (hempty : rt.toLowerCase "" = "")
    (hkw : ∀ kw ∈ suspiciousKeywords, rt.toLowerCase kw ≠ "") (p : Payload) :
    scanData rt p.toJs = .ok (specResult rt p) := by
  unfold scanData
  rw [get_main_subject, Except.ok_bind, scanField_toJs rt hempty hkw, Except.ok_bind,
    get_key_events, Except.ok_bind, scanEvents_of_list rt hempty hkw, Except.ok_bind]
  simp only []
  rw [get_overall_summary, Except.ok_bind, scanField_toJs rt hempty hkw, Except.ok_bind]
  simp only [pure, Except.pure, List.nil_append]
  rw [result_eq_spec]
  rfl

theorem tryBody_toJs (rt : Builtins) (p : Payload) : tryBody rt p.toJs = scanData rt p.toJs :=
  rfl

/-- C8. Let lower-casing map the empty text to itself and no keyword to the
empty text. For every well-formed payload `p`, given as an object or as JSON
text that parses to it, `analyzeForSecurity` returns the result in the words of
the specification: `flags` holds one flag per (field, keyword) pair where the
lower-cased keyword is a substring of the lower-cased field, over the main
subject, then the key events in order, then the summary, keywords in list order;
`timestamps` holds the timestamp of each key-event match; `hasSuspiciousActivity`
says that `flags` is not empty; `severity` is `high` for more than 2 flags,
`medium` for 1 or 2 and `low` for none. -/
theorem scan_matches_spec (rt : Builtins) (p : Payload) (hempty : rt.toLowerCase "" = "")
    (hkw : ∀ kw ∈ suspiciousKeywords, rt.toLowerCase kw ≠ "") :
    analyzeForSecurity rt p.toJs = specResult rt p ∧
      (∀ s, rt.parse s = .ok p.toJs → analyzeForSecurity rt (.string s) = specResult rt p) ∧
      (2 < (specFlags rt p).length → (analyzeForSecurity rt p.toJs).severity = "high") ∧
      ((specFlags rt p).length = 1 ∨ (specFlags rt p).length = 2 →
        (analyzeForSecurity rt p.toJs).severity = "medium") ∧
      ((specFlags rt p).length = 0 → (analyzeForSecurity rt p.toJs).severity = "low") := by
  have hobj : analyzeForSecurity rt p.toJs = specResult rt p := by
    unfold analyzeForSecurity
    rw [tryBody_toJs, scanData_toJs rt hempty hkw]
  refine ⟨hobj, ?_, ?_, ?_, ?_⟩
  · intro s hs
    unfold analyzeForSecurity tryBody
    simp only [parseInput, hs, Except.ok_bind]
    rw [scanData_toJs rt hempty hkw]
  · intro h
    rw [hobj]
    simp [specResult, specSeverity, h]
  · intro h
    rw [hobj]
    rcases h with h | h <;> simp [specResult, specSeverity, h]
  · intro h
    rw [hobj]
    simp [specResult, specSeverity, h]

theorem analyze_burglarPayload :
    analyzeForSecurity strangerBuiltins burglarPayload.toJs =
      specResult strangerBuiltins burglarPayload := by
  unfold analyzeForSecurity
  rw [tryBody_toJs, scanData_toJs strangerBuiltins (by decide) (by decide)]

/-- C8 at `main_subject = 'a stranger at night'`, as an object and as JSON text:
exactly the flags for `stranger` and `night`, severity `medium`; and at a
payload with three flags: severity `high`. -/
theorem scan_matches_spec_witness :
    (strangerBuiltins.toLowerCase "" = "" ∧
      ∀ kw ∈ suspiciousKeywords, strangerBuiltins.toLowerCase kw ≠ "") ∧
    (analyzeForSecurity strangerBuiltins strangerPayload.toJs =
        specResult strangerBuiltins strangerPayload ∧
      (∀ s, strangerBuiltins.parse s = .ok strangerPayload.toJs →
        analyzeForSecurity strangerBuiltins (.string s) =
          specResult strangerBuiltins strangerPayload) ∧
      (2 < (specFlags strangerBuiltins strangerPayload).length →
        (analyzeForSecurity strangerBuiltins strangerPayload.toJs).severity = "high") ∧
      ((specFlags strangerBuiltins strangerPayload).length = 1 ∨
          (specFlags strangerBuiltins strangerPayload).length = 2 →
        (analyzeForSecurity strangerBuiltins strangerPayload.toJs).severity = "medium") ∧
      ((specFlags strangerBuiltins strangerPayload).length = 0 →
        (analyzeForSecurity strangerBuiltins strangerPayload.toJs).severity = "low")) ∧
    (analyzeForSecurity strangerBuiltins (.string strangerText)).flags =
      ["Suspicious activity detected in main subject: stranger",
        "Suspicious activity detected in main subject: night"] ∧
    (analyzeForSecurity strangerBuiltins (.string strangerText)).hasSuspiciousActivity = true ∧
    (analyzeForSecurity strangerBuiltins (.string strangerText)).severity = "medium" ∧
    (analyzeForSecurity strangerBuiltins burglarPayload.toJs).flags =
      ["Suspicious activity detected in main subject: night",
        "Suspicious activity detected at 0:05: masked",
        "Suspicious activity detected at 0:12: forced entry"] ∧
    (analyzeForSecurity strangerBuiltins burglarPayload.toJs).severity = "high" :=
  ⟨⟨by decide, by decide⟩,
    scan_matches_spec strangerBuiltins strangerPayload (by decide) (by decide),
    by decide, by decide, by decide,
    by rw [analyze_burglarPayload]; decide, by rw [analyze_burglarPayload]; decide⟩

/-! ### C9 -/

theorem analyze_of_throw (rt : Builtins) (analysis : JsValue) (m : String)
    (h : tryBody rt analysis = .error m) : analyzeForSecurity rt analysis = zeroResult := by
  unfold analyzeForSecurity
  rw [h]

theorem tryBody_object (rt : Builtins) (fields : List (String × JsValue)) :
    tryBody rt (.object fields) = scanData rt (.object fields) := rfl

theorem scanEvents_null (rt : Builtins) :
    ∀ (items : List JsValue) (state : List String × List JsValue), JsValue.null ∈ items →
      ∃ m, items.foldlM (fun state event => scanEvent rt event state) state = .error m := by
  intro items
  induction items with
  | nil => intro state h; cases h
  | cons x xs ih =>
    intro state h
    rw [List.foldlM_cons]
    cases hx : scanEvent rt x state with
    | error m => exact ⟨m, rfl⟩
    | ok state' =>
      rcases List.mem_cons.mp h with h' | h'
      · subst h'
        simp [scanEvent, JsValue.get, bind, Except.bind] at hx
      · exact ih state' h'

theorem toLowerCase_of_not_string (rt : Builtins) (v : JsValue) (h : ∀ t, v ≠ .string t) :
    ∃ m, v.toLowerCase rt = .error m := by
  cases v with
  | string t => exact absurd rfl (h t)
  | _ => exact ⟨_, rfl⟩

theorem scanData_bad_subject (rt : Builtins) (fields : List (String × JsValue)) (v : JsValue)
    (hv : fields.lookup "main_subject" = some v) (htruthy : v.truthy = true)
    (hns : ∀ t, v ≠ .string t) : ∃ m, scanData rt (.object fields) = .error m := by
  obtain ⟨m, hm⟩ := toLowerCase_of_not_string rt v hns
  refine ⟨m, ?_⟩
  unfold scanData
  simp only [JsValue.get, hv, Option.getD_some, Except.ok_bind]
  simp only [scanField, htruthy, if_true, hm]
  rfl

theorem scanData_null_event (rt : Builtins) (fields : List (String × JsValue))
    (items : List JsValue) (hk : fields.lookup "key_events" = some (.array items))
    (hnull : JsValue.null ∈ items) : ∃ m, scanData rt (.object fields) = .error m := by
  unfold scanData
  simp only [JsValue.get, Except.ok_bind, hk, Option.getD_some]
  cases hs : scanField rt ((List.lookup "main_subject" fields).getD JsValue.undefined)
      (fun keyword => "Suspicious activity detected in main subject: " ++ keyword) [] with
  | error m => exact ⟨m, rfl⟩
  | ok flags =>
    obtain ⟨m, hm⟩ := scanEvents_null rt items (flags, []) hnull
    refine ⟨m, ?_⟩
    simp only [Except.ok_bind, scanEvents, hm]
    rfl

/-- C9. When `JSON.parse` throws on the text `s`, `analyzeForSecurity` returns
the zero result `{hasSuspiciousActivity: false, flags: [], timestamps: [],
severity: 'low'}`; so it does on every input on which the `try` block throws,
in particular on `null` and `undefined` data, on text that parses to `null`, on
an object whose `main_subject` is truthy and not a string, and on an object
whose `key_events` array holds a `null`, whatever the other fields hold. Being
a total function, it propagates no error. -/
theorem malformed_input_zero_result (rt : Builtins) (s m : String)
    (hparse : rt.parse s = .error m) :
    analyzeForSecurity rt (.string s) = ⟨false, [], [], "low"⟩ ∧
      (∀ analysis m', tryBody rt analysis = .error m' →
        analyzeForSecurity rt analysis = ⟨false, [], [], "low"⟩) ∧
      analyzeForSecurity rt .null = ⟨false, [], [], "low"⟩ ∧
      analyzeForSecurity rt .undefined = ⟨false, [], [], "low"⟩ ∧
      (∀ s', rt.parse s' = .ok .null → analyzeForSecurity rt (.string s') = ⟨false, [], [], "low"⟩) ∧
      (∀ fields v, fields.lookup "main_subject" = some v → v.truthy = true →
        (∀ t, v ≠ .string t) → analyzeForSecurity rt (.object fields) = ⟨false, [], [], "low"⟩) ∧
      (∀ fields items, fields.lookup "key_events" = some (.array items) →
        JsValue.null ∈ items → analyzeForSecurity rt (.object fields) = ⟨false, [], [], "low"⟩) := by
  refine ⟨?_, analyze_of_throw rt, rfl, rfl, ?_, ?_, ?_⟩
  · apply analyze_of_throw rt _ m
    unfold tryBody
    simp only [parseInput, hparse]
    rfl
  · intro s' hs'
    unfold analyzeForSecurity tryBody
    simp only [parseInput, hs']
    rfl
  · intro fields v hv htruthy hns
    obtain ⟨m', hm'⟩ := scanData_bad_subject rt fields v hv htruthy hns
    exact analyze_of_throw rt _ m' (by rw [tryBody_object, hm'])
  · intro fields items hk hnull
    obtain ⟨m', hm'⟩ := scanData_null_event rt fields items hk hnull
    exact analyze_of_throw rt _ m' (by rw [tryBody_object, hm'])

/-- C9 at the text `not json`, which the parser of the examples rejects. -/
theorem malformed_input_zero_result_witness :
    strangerBuiltins.parse "not json" = .error "Unexpected token" ∧
    (analyzeForSecurity strangerBuiltins (.string "not json") = ⟨false, [], [], "low"⟩ ∧
      (∀ analysis m', tryBody strangerBuiltins analysis = .error m' →
        analyzeForSecurity strangerBuiltins analysis = ⟨false, [], [], "low"⟩) ∧
      analyzeForSecurity strangerBuiltins .null = ⟨false, [], [], "low"⟩ ∧
      analyzeForSecurity strangerBuiltins .undefined = ⟨false, [], [], "low"⟩ ∧
      (∀ s', strangerBuiltins.parse s' = .ok .null →
        analyzeForSecurity strangerBuiltins (.string s') = ⟨false, [], [], "low"⟩) ∧
      (∀ fields v, fields.lookup "main_subject" = some v → v.truthy = true →
        (∀ t, v ≠ .string t) → analyzeForSecurity strangerBuiltins (.object fields) = ⟨false, [], [], "low"⟩) ∧
      (∀ fields items, fields.lookup "key_events" = some (.array items) →
        JsValue.null ∈ items →
        analyzeForSecurity strangerBuiltins (.object fields) = ⟨false, [], [], "low"⟩)) :=
  ⟨rfl, malformed_input_zero_result strangerBuiltins "not json" "Unexpected token" rfl⟩

end SecurityAnalysis

namespace AnalyzeVideo

/-! ### C7 -/

theorem digitChar_toNat (k : Nat) (hk : k < 10) :
    (Nat.digitChar k).toNat - 48 = k ∧ Nat.digitChar k ≠ '/' := by
  interval_cases k <;> exact ⟨rfl, by decide⟩

theorem toDigitsCore_spec :
    ∀ (fuel n : Nat) (ds : List Char), n < fuel →
      ∃ pre, Nat.toDigitsCore 10 fuel n ds = pre ++ ds ∧
        pre.foldl (fun acc c => 10 * acc + (c.toNat - 48)) 0 = n ∧
        (∀ c ∈ pre, c ≠ '/') ∧ pre ≠ [] := by
  intro fuel
  induction fuel with
  | zero => intro n ds h; omega
  | succ fuel ih =>
    intro n ds h
    have hd := digitChar_toNat (n % 10) (Nat.mod_lt _ (by norm_num))
    unfold Nat.toDigitsCore
    by_cases h0 : n / 10 = 0
    · refine ⟨[Nat.digitChar (n % 10)], by simp [h0], ?_, ?_, by simp⟩
      · simp only [List.foldl_cons, List.foldl_nil, hd.1]
        omega
      · intro c hc
        rw [List.mem_singleton] at hc
        rw [hc]; exact hd.2
    · obtain ⟨pre, hpre, hval, hns, -⟩ :=
        ih (n / 10) (Nat.digitChar (n % 10) :: ds) (by omega)
      refine ⟨pre ++ [Nat.digitChar (n % 10)], by simp [h0, hpre], ?_, ?_, by simp⟩
      · rw [List.foldl_append, hval]
        simp only [List.foldl_cons, List.foldl_nil, hd.1]
        omega
      · intro c hc
        rcases List.mem_append.mp hc with h' | h'
        · exact hns c h'
        · rw [List.mem_singleton] at h'
          rw [h']; exact hd.2

theorem toString_data_spec (n : Nat) :
    (toString n).data.foldl (fun acc c => 10 * acc + (c.toNat - 48)) 0 = n ∧
      (∀ c ∈ (toString n).data, c ≠ '/') ∧ (toString n).data ≠ [] := by
  obtain ⟨pre, hpre, hval, hns, hne⟩ := toDigitsCore_spec (n + 1) n [] (by omega)
  have hdata : (toString n).data = pre := by
    show (Nat.toDigits 10 n) = pre
    unfold Nat.toDigits
    rw [hpre, List.append_nil]
  rw [hdata]
  exact ⟨hval, hns, hne⟩

theorem splitSep_ne_nil (l : List Char) : splitSep l ≠ [] := by
  cases l with
  | nil => simp [splitSep]
  | cons c cs =>
    unfold splitSep
    split
    · simp
    · split <;> simp

theorem splitSep_append_sep (a b : List Char) :
    splitSep (a ++ '/' :: b) = splitSep a ++ splitSep b := by
  induction a with
  | nil => simp [splitSep]
  | cons c cs ih =>
    by_cases hc : c = '/'
    · simp [splitSep, hc, ih]
    · have hne := splitSep_ne_nil cs
      cases hs : splitSep cs with
      | nil => exact absurd hs hne
      | cons s ss => simp [splitSep, hc, ih, hs]

theorem splitSep_append_plain (a b h : List Char) (t : List (List Char))
    (ha : ∀ c ∈ a, c ≠ '/') (hb : splitSep b = h :: t) :
    splitSep (a ++ b) = (a ++ h) :: t := by
  induction a with
  | nil => simpa using hb
  | cons c cs ih =>
    have hc : c ≠ '/' := ha c (List.mem_cons_self _ _)
    have := ih (fun c' hc' => ha c' (List.mem_cons_of_mem _ hc'))
    simp [splitSep, hc, this]

theorem normalizeSegs_skip (allow : Bool) (acc rest : List (List Char)) (seg : List Char)
    (h : seg = [] ∨ seg = ['.']) :
    normalizeSegs allow acc (seg :: rest) = normalizeSegs allow acc rest := by
  show (if seg = [] ∨ seg = ['.'] then _ else _) = _
  rw [if_pos h]

theorem normalizeSegs_keep (allow : Bool) (acc rest : List (List Char)) (seg : List Char)
    (h1 : ¬ (seg = [] ∨ seg = ['.'])) (h2 : seg ≠ ['.', '.']) :
    normalizeSegs allow acc (seg :: rest) = normalizeSegs allow (seg :: acc) rest := by
  show (if seg = [] ∨ seg = ['.'] then _ else _) = _
  rw [if_neg h1, if_neg h2]

theorem normalizeSegs_up (allow : Bool) (acc : List (List Char)) :
    ∃ acc', ∀ rest,
      normalizeSegs allow acc (['.', '.'] :: rest) = normalizeSegs allow acc' rest := by
  cases acc with
  | nil =>
    cases allow with
    | true => exact ⟨[['.', '.']], fun _ => rfl⟩
    | false => exact ⟨[], fun _ => rfl⟩
  | cons top acc0 =>
    by_cases h3 : top = ['.', '.']
    · refine ⟨['.', '.'] :: top :: acc0, fun rest => ?_⟩
      show (if ['.', '.'] = [] ∨ ['.', '.'] = ['.'] then _ else _) = _
      rw [if_neg (by decide), if_pos rfl]
      simp only [h3, if_true]
    · refine ⟨acc0, fun rest => ?_⟩
      show (if ['.', '.'] = [] ∨ ['.', '.'] = ['.'] then _ else _) = _
      rw [if_neg (by decide), if_pos rfl]
      simp only [h3, if_false]

theorem normalizeSegs_append (allow : Bool) :
    ∀ (a acc : List (List Char)), ∃ acc', ∀ b,
      normalizeSegs allow acc (a ++ b) = normalizeSegs allow acc' b := by
  intro a
  induction a with
  | nil => intro acc; exact ⟨acc, fun b => rfl⟩
  | cons seg rest ih =>
    intro acc
    by_cases h1 : seg = [] ∨ seg = ['.']
    · obtain ⟨acc', h⟩ := ih acc
      exact ⟨acc', fun b => by rw [List.cons_append, normalizeSegs_skip _ _ _ _ h1, h]⟩
    · by_cases h2 : seg = ['.', '.']
      · subst h2
        obtain ⟨acc1, hup⟩ := normalizeSegs_up allow acc
        obtain ⟨acc', h⟩ := ih acc1
        exact ⟨acc', fun b => by rw [List.cons_append, hup, h]⟩
      · obtain ⟨acc', h⟩ := ih (seg :: acc)
        exact ⟨acc', fun b => by
          rw [List.cons_append, normalizeSegs_keep _ _ _ _ h1 h2, h]⟩

theorem normalizeSegs_plain (allow : Bool) :
    ∀ (rest acc : List (List Char)), ['.', '.'] ∉ rest →
      normalizeSegs allow acc rest =
        acc.reverse ++ rest.filter (fun s => decide (¬ (s = [] ∨ s = ['.']))) := by
  intro rest
  induction rest with
  | nil => intro acc _; simp [normalizeSegs]
  | cons seg rest ih =>
    intro acc hmem
    have hseg : seg ≠ ['.', '.'] := fun h => hmem (h ▸ List.mem_cons_self _ _)
    have hrest : ['.', '.'] ∉ rest := fun h => hmem (List.mem_cons_of_mem _ h)
    by_cases h1 : seg = [] ∨ seg = ['.']
    · rw [normalizeSegs_skip _ _ _ _ h1, ih acc hrest, List.filter_cons]
      simp [h1]
    · rw [normalizeSegs_keep _ _ _ _ h1 hseg, ih _ hrest, List.filter_cons]
      simp [h1]

theorem intercalate_cons_cons (sep x y : List Char) (xs : List (List Char)) :
    List.intercalate sep (x :: y :: xs) = x ++ (sep ++ List.intercalate sep (y :: xs)) := by
  simp [List.intercalate, List.intersperse]

theorem intercalate_split (sep : List Char) (A K : List (List Char)) :
    ∃ pre suf, ∀ x, List.intercalate sep (A ++ x :: K) = pre ++ (x ++ suf) := by
  induction A with
  | nil =>
    cases K with
    | nil => exact ⟨[], [], fun x => by simp [List.intercalate, List.intersperse]⟩
    | cons y K =>
      exact ⟨[], sep ++ List.intercalate sep (y :: K), fun x => by
        rw [List.nil_append, intercalate_cons_cons, List.nil_append]⟩
  | cons a A ih =>
    obtain ⟨pre, suf, h⟩ := ih
    refine ⟨a ++ (sep ++ pre), suf, fun x => ?_⟩
    cases A with
    | nil =>
      rw [List.cons_append, List.nil_append, intercalate_cons_cons]
      have := h x
      rw [List.nil_append] at this
      rw [this]
      simp [List.append_assoc]
    | cons b A =>
      rw [List.cons_append, List.cons_append, intercalate_cons_cons]
      have := h x
      rw [List.cons_append] at this
      rw [this]
      simp [List.append_assoc]

theorem normalize_of_nonempty (path : List Char) (abs trailing : Bool) (h : path ≠ [])
    (habs : decide (path.head? = some '/') = abs)
    (htrailing : decide (path.getLast? = some '/') = trailing)
    (hres : normalizeString path (!abs) ≠ []) :
    normalize path =
      (if abs then ['/'] else []) ++
        (normalizeString path (!abs) ++ (if trailing then ['/'] else [])) := by
  subst habs htrailing
  unfold normalize
  simp only [h, if_false, hres]
  split_ifs <;> simp_all

theorem splitSep_tagged (P n h0 : List Char) (t0 : List (List Char))
    (hP : P = [] ∨ ∃ dir, P = dir ++ ['/']) (hs : splitSep n = h0 :: t0) :
    ∃ D, ∀ d : List Char, (∀ c ∈ d, c ≠ '/') →
      splitSep (P ++ (d ++ '-' :: n)) = D ++ (d ++ '-' :: h0) :: t0 := by
  have hplain : ∀ d : List Char, (∀ c ∈ d, c ≠ '/') →
      splitSep (d ++ '-' :: n) = (d ++ '-' :: h0) :: t0 := by
    intro d hd
    have h := splitSep_append_plain (d ++ ['-']) n h0 t0
      (by
        intro c hc
        rcases List.mem_append.mp hc with h' | h'
        · exact hd c h'
        · rw [List.mem_singleton] at h'; rw [h']; decide) hs
    simpa [List.append_assoc] using h
  rcases hP with hP | ⟨dir, hP⟩
  · subst hP
    exact ⟨[], fun d hd => by rw [List.nil_append, List.nil_append]; exact hplain d hd⟩
  · subst hP
    refine ⟨splitSep dir, fun d hd => ?_⟩
    rw [List.append_assoc, List.singleton_append, splitSep_append_sep, hplain d hd]

theorem head_tagged (P n d : List Char) (hP : P = [] ∨ ∃ dir, P = dir ++ ['/'])
    (hd : ∀ c ∈ d, c ≠ '/') (hdne : d ≠ []) :
    ((P ++ (d ++ '-' :: n)).head? = some '/') = (P.head? = some '/') := by
  rcases hP with hP | ⟨dir, hP⟩
  · subst hP
    cases d with
    | nil => exact absurd rfl hdne
    | cons c cs =>
      have hc : c ≠ '/' := hd c (List.mem_cons_self _ _)
      simp [hc]
  · subst hP
    cases dir <;> simp

theorem normalize_tagged (P n : List Char) (hP : P = [] ∨ ∃ dir, P = dir ++ ['/'])
    (hn : ['.', '.'] ∉ splitSep n) :
    ∃ pre suf h0, ∀ d : List Char, (∀ c ∈ d, c ≠ '/') → d ≠ [] →
      normalize (P ++ (d ++ '-' :: n)) = pre ++ ((d ++ '-' :: h0) ++ suf) := by
  cases hs : splitSep n with
  | nil => exact absurd hs (splitSep_ne_nil n)
  | cons h0 t0 =>
    have ht0 : ['.', '.'] ∉ t0 := fun h => hn (hs ▸ List.mem_cons_of_mem _ h)
    obtain ⟨D, hD⟩ := splitSep_tagged P n h0 t0 hP hs
    obtain ⟨acc', hacc⟩ := normalizeSegs_append (!decide (P.head? = some '/')) D []
    obtain ⟨pre0, suf0, hint⟩ := intercalate_split ['/'] acc'.reverse
      (t0.filter (fun s => decide (¬ (s = [] ∨ s = ['.']))))
    refine ⟨(if P.head? = some '/' then ['/'] else []) ++ pre0,
      suf0 ++ (if ('-' :: n).getLast? = some '/' then ['/'] else []), h0, fun d hd hdne => ?_⟩
    have hhead := head_tagged P n d hP hd hdne
    have hlast : (P ++ (d ++ '-' :: n)).getLast? = ('-' :: n).getLast? := by
      rw [← List.append_assoc, List.getLast?_append]
      cases h : ('-' :: n).getLast? with
      | none => simp at h
      | some c => rfl
    have hmem : '-' ∈ d ++ '-' :: h0 := by simp
    have hreg : ¬ (d ++ '-' :: h0 = [] ∨ d ++ '-' :: h0 = ['.']) := by
      rintro (h | h) <;> rw [h] at hmem <;> simp at hmem
    have hup : d ++ '-' :: h0 ≠ ['.', '.'] := by
      intro h; rw [h] at hmem; simp at hmem
    have hres : normalizeString (P ++ (d ++ '-' :: n)) (!decide (P.head? = some '/')) =
        pre0 ++ ((d ++ '-' :: h0) ++ suf0) := by
      unfold normalizeString
      rw [hD d hd, hacc, normalizeSegs_keep _ _ _ _ hreg hup, normalizeSegs_plain _ _ _ ht0,
        List.reverse_cons, List.append_assoc, List.singleton_append, hint]
    have hne : P ++ (d ++ '-' :: n) ≠ [] := by simp
    have habs : decide ((P ++ (d ++ '-' :: n)).head? = some '/') =
        decide (P.head? = some '/') := by simp only [hhead]
    have htr : decide ((P ++ (d ++ '-' :: n)).getLast? = some '/') =
        decide (('-' :: n).getLast? = some '/') := by simp only [hlast]
    rw [normalize_of_nonempty _ _ _ hne habs htr (by rw [hres]; simp), hres]
    simp [List.append_assoc]

theorem join_pair (dir f : String) (hf : f.data ≠ []) :
    join [dir, f] =
      String.mk (normalize ((if dir.data = [] then [] else dir.data ++ ['/']) ++ f.data)) := by
  by_cases hdir : dir.data = []
  · simp [join, hdir, hf, List.intercalate, List.intersperse]
  · simp [join, hdir, hf, List.intercalate, List.intersperse]

/-- C7, amended. For every working directory, every original file name `n`
none of whose `/`-separated segments is `..`, and every two clock values
`t1 ≠ t2`, the storage paths `join(uploadDir, t1-n)` and `join(uploadDir, t2-n)`
are distinct. -/
theorem storagePath_injective_of_plain (cwd n : String) (t1 t2 : Nat)
    (hn : ['.', '.'] ∉ splitSep n.data) (ht : t1 ≠ t2) :
    storagePath cwd t1 n ≠ storagePath cwd t2 n := by
  have hdata : ∀ t : Nat, (toString t ++ "-" ++ n).data = (toString t).data ++ '-' :: n.data := by
    intro t
    simp [String.data_append]
  have hpath : ∀ t : Nat, storagePath cwd t n =
      String.mk (normalize ((if (join [cwd, "uploads"]).data = [] then []
        else (join [cwd, "uploads"]).data ++ ['/']) ++ ((toString t).data ++ '-' :: n.data))) := by
    intro t
    unfold storagePath
    rw [join_pair _ _ (by rw [hdata]; simp), hdata]
  have hP : (if (join [cwd, "uploads"]).data = [] then []
      else (join [cwd, "uploads"]).data ++ ['/']) = [] ∨
      ∃ dir, (if (join [cwd, "uploads"]).data = [] then []
        else (join [cwd, "uploads"]).data ++ ['/']) = dir ++ ['/'] := by
    by_cases hdir : (join [cwd, "uploads"]).data = []
    · left; rw [if_pos hdir]
    · right; exact ⟨_, by rw [if_neg hdir]⟩
  obtain ⟨pre, suf, h0, hnorm⟩ := normalize_tagged _ n.data hP hn
  intro heq
  rw [hpath t1, hpath t2] at heq
  have heq' := congrArg String.data heq
  simp only at heq'
  rw [hnorm _ (toString_data_spec t1).2.1 (toString_data_spec t1).2.2,
    hnorm _ (toString_data_spec t2).2.1 (toString_data_spec t2).2.2] at heq'
  have h1 := List.append_cancel_right (List.append_cancel_left heq')
  have h2 : (toString t1).data = (toString t2).data := List.append_cancel_right h1
  apply ht
  rw [← (toString_data_spec t1).1, ← (toString_data_spec t2).1, h2]

/-- C7, amended, at the name `clip.mp4` and the clock values 1 and 2. -/
theorem storagePath_injective_of_plain_witness :
    (['.', '.'] ∉ splitSep "clip.mp4".data ∧ 1 ≠ 2) ∧
    storagePath "/app" 1 "clip.mp4" ≠ storagePath "/app" 2 "clip.mp4" :=
  ⟨⟨by decide, by decide⟩,
    storagePath_injective_of_plain "/app" "clip.mp4" 1 2 (by decide) (by decide)⟩

/-- C7 as stated fails: `path.join` resolves `..`, so for the file name
`a/../clip.mp4` the segment that carries the clock value is removed again, and
the clock values 1 and 2 give the same storage path `/app/uploads/clip.mp4`. -/
theorem storagePath_collision :
    (1 : Nat) ≠ 2 ∧
    storagePath "/app" 1 "a/../clip.mp4" = "/app/uploads/clip.mp4" ∧
    storagePath "/app" 2 "a/../clip.mp4" = "/app/uploads/clip.mp4" ∧
    storagePath "/app" 1 "a/../clip.mp4" = storagePath "/app" 2 "a/../clip.mp4" := by
  decide

end AnalyzeVideo

namespace ResearchChat

open SecurityAnalysis (JsValue)

/-! ### C11 -/

theorem sessionFor_of_history (fields : List (String × JsValue))
    (history : Option (List JsValue))
    (hhist : fields.lookup "history" = history.map JsValue.array) :
    (JsValue.object fields).get "history" =
        .ok ((history.map JsValue.array).getD .undefined) ∧
      sessionFor ((history.map JsValue.array).getD .undefined) =
        ⟨"gemini-2.0-flash-exp", generationConfig, .array (history.getD [])⟩ := by
  refine ⟨by simp [JsValue.get, hhist], ?_⟩
  cases history with
  | none => simp [sessionFor, JsValue.truthy]
  | some h => simp [sessionFor, JsValue.truthy]

/-- C11. Let the request body be an object whose `text` is a non-empty string
and whose `history` is absent or an array `h` of entries of any shape, let
`startChat` accept the session and let the model answer the message with the
text `r`. Then the invocation starts one session, on model
`gemini-2.0-flash-exp` with the fixed generation parameters, whose history is
exactly `h` (the empty array when `history` is absent), then sends exactly
`text` to it, does nothing else, and answers 200 with body
`{response: r, status: 'success'}`. -/
theorem chat_passthrough (env : Env) (fields : List (String × JsValue)) (text : String)
    (history : Option (List JsValue)) (result : ChatResult) (r : String)
    (hjson : env.json = .ok (.object fields))
    (htext : fields.lookup "text" = some (.string text)) (hne : text ≠ "")
    (hhist : fields.lookup "history" = history.map JsValue.array)
    (hstart : env.startChat
      ⟨"gemini-2.0-flash-exp", generationConfig, .array (history.getD [])⟩ = .ok ())
    (hsend : env.sendMessage
      ⟨"gemini-2.0-flash-exp", generationConfig, .array (history.getD [])⟩ (.string text) =
        .ok result)
    (hr : result.text = .ok r) :
    (POST env).trace =
        [.startChat ⟨"gemini-2.0-flash-exp", generationConfig, .array (history.getD [])⟩,
          .sendMessage (.string text)] ∧
      (POST env).response = ⟨200, [("response", r), ("status", "success")]⟩ := by
  obtain ⟨hget, hsession⟩ := sessionFor_of_history fields history hhist
  have hgetText : (JsValue.object fields).get "text" = .ok (.string text) := by
    simp [JsValue.get, htext]
  have htruthy : (JsValue.string text).truthy = true := by simp [JsValue.truthy, hne]
  have htry : tryBlock env =
      ([.startChat ⟨"gemini-2.0-flash-exp", generationConfig, .array (history.getD [])⟩,
          .sendMessage (.string text)],
        .ok ⟨200, [("response", r), ("status", "success")]⟩) := by
    unfold tryBlock
    simp only [hjson, hgetText, hget, htruthy, hsession, hstart, hsend, hr, Bool.not_true,
      Bool.false_eq_true, if_false]
  unfold POST
  rw [htry]
  exact ⟨rfl, rfl⟩

/-- C11 at `history = [{role: 'user', content: 'hi'}]` and `text = 'follow up'`. -/
theorem chat_passthrough_witness :
    (sampleEnv.json =
        .ok (.object [("text", .string "follow up"), ("history", .array sampleHistory)]) ∧
      "follow up" ≠ "") ∧
    ((POST sampleEnv).trace =
        [.startChat ⟨"gemini-2.0-flash-exp", generationConfig,
            .array [.object [("role", .string "user"), ("content", .string "hi")]]⟩,
          .sendMessage (.string "follow up")] ∧
      (POST sampleEnv).response = ⟨200, [("response", "model reply"), ("status", "success")]⟩) :=
  ⟨⟨rfl, by decide⟩,
    chat_passthrough sampleEnv
      [("text", .string "follow up"), ("history", .array sampleHistory)] "follow up"
      (some sampleHistory) ⟨.ok "model reply"⟩ "model reply" rfl rfl (by decide) rfl rfl rfl rfl⟩

end ResearchChat
